import Mathlib


/-!
Verification development for the recommendation subsystem of a
content-management / e-commerce web application.

The embedding covers, from `app.py`: keyword extraction, content-content
similarity, content recommendations, trending content, interaction tracking,
the user-item matrix, user-user cosine similarity, collaborative filtering
and the hybrid recommender; from `recommendation_engine.py`: behaviour
analysis, collaborative filtering, preference-based recommendations, the
trending fallback, the hybrid combination step and feedback tracking; from
`product_recommendation_engine.py`: the user-product matrix, user-user
similarity, user-based collaborative filtering, category-based and popular
products and the product hybrid recommender; and from
`user_type_classifier.py`: the tech/business/mixed content classifier.

Modelling conventions:
* Python floats are modelled as `ℚ`, except where the code takes a square
  root (`** 0.5`, `math.sqrt`, sklearn cosine similarity), where `ℝ` is used.
* Python dicts are association lists (`List (κ × β)`) preserving insertion
  order; `defaultdict(float)` accumulation is `addTo`, plain assignment is
  `setTo`, lookup is `lookupD`.
* Python sets are determinised as first-occurrence lists
  (`firstOccurrences`); the only places this order can matter downstream are
  tie-breaks of later stable sorts.
* `sorted(..., reverse=True)` and SQL `ORDER BY ... DESC` are the stable
  descending merge sort `sortDescBy` (two keys: `sortDescBy2`).
* Timestamps and creation dates are day numbers (`ℕ`); `datetime.utcnow()`
  is an explicit `now` argument, and windows such as "90 days" become
  truncated subtraction `now - 90`.
-/

/-- Deduplication keeping first occurrences, skipping elements already in
`seen`. -/
def firstOccurrencesAux {α : Type} [DecidableEq α] : List α → List α → List α
  | [], _ => []
  | x :: xs, seen =>
    if x ∈ seen then firstOccurrencesAux xs seen
    else x :: firstOccurrencesAux xs (x :: seen)

/-- First occurrence of each element, in order: the determinisation of a
Python `set(...)` built by insertion, and of SQL `DISTINCT` in scan order. -/
def firstOccurrences {α : Type} [DecidableEq α] (l : List α) : List α :=
  firstOccurrencesAux l []

/-- Accumulating update of an association list, as a Python
`defaultdict`-style `d[k] += v`: bump the existing entry, else append. -/
def addTo {κ β : Type} [DecidableEq κ] [Add β] (l : List (κ × β)) (k : κ) (v : β) :
    List (κ × β) :=
  if l.any (fun kv => decide (kv.1 = k)) then
    l.map (fun kv => if kv.1 = k then (kv.1, kv.2 + v) else kv)
  else l ++ [(k, v)]

/-- Overwriting update of an association list, as a Python `d[k] = v`. -/
def setTo {κ β : Type} [DecidableEq κ] (l : List (κ × β)) (k : κ) (v : β) :
    List (κ × β) :=
  if l.any (fun kv => decide (kv.1 = k)) then
    l.map (fun kv => if kv.1 = k then (kv.1, v) else kv)
  else l ++ [(k, v)]

/-- Lookup in an association list with a default, as Python `d.get(k, dflt)`
(first entry wins, matching dict semantics on duplicate-free keys). -/
def lookupD {κ β : Type} [DecidableEq κ] (l : List (κ × β)) (k : κ) (dflt : β) : β :=
  match l.find? (fun kv => decide (kv.1 = k)) with
  | some kv => kv.2
  | none => dflt

/-- Apply `f` to the first element satisfying `p`, leaving the rest alone:
the effect of mutating the single row returned by a `.first()` query. -/
def updateFirst {α : Type} (p : α → Bool) (f : α → α) : List α → List α
  | [] => []
  | x :: xs => if p x then f x :: xs else x :: updateFirst p f xs

/-- Maximum of a list of rationals, `1` on the empty list: models
`max(d.values()) if d else 1`. -/
def listMax : List ℚ → ℚ
  | [] => 1
  | v :: vs => vs.foldl max v

/-- Stable descending sort by one key: Python `sorted(l, key=f, reverse=True)`
(stability: `reverse=True` does not reverse ties; a stable descending sort
is unique, so insertion sort with this relation computes it). -/
def sortDescBy {α β : Type} [LinearOrder β] (f : α → β) (l : List α) : List α :=
  l.insertionSort (fun a b => f b ≤ f a)

/-- Stable ascending sort by one key: Python `sorted(l, key=f)`. -/
def sortAscBy {α β : Type} [LinearOrder β] (f : α → β) (l : List α) : List α :=
  l.insertionSort (fun a b => f a ≤ f b)

/-- Stable descending sort by two keys: SQL `ORDER BY f DESC, g DESC`. -/
def sortDescBy2 {α β γ : Type} [LinearOrder β] [LinearOrder γ]
    (f : α → β) (g : α → γ) (l : List α) : List α :=
  l.insertionSort (fun a b => f b < f a ∨ (f a = f b ∧ g b ≤ g a))

/-- The `n` most frequent elements of `l`, most frequent first, ties broken
by first occurrence: `collections.Counter(l).most_common(n)` (CPython's
`most_common` is documented as `sorted` by count descending, which is stable
on the counter's insertion order). -/
def mostCommon {α : Type} [DecidableEq α] (l : List α) (n : ℕ) : List α :=
  (sortDescBy (fun x => l.count x) (firstOccurrences l)).take n

/-- The list is ordered by non-increasing key `f`. -/
def DescendingBy {α β : Type} [Preorder β] (f : α → β) (l : List α) : Prop :=
  l.Chain' (fun a b => f b ≤ f a)

/-! ### Content domain data model

`Content` is a published-content row (`models.Content`): the body text is
modelled at the token level, as the list of words left by `extract_keywords`'
normalisation (lowercasing, HTML-tag and non-alphanumeric stripping,
whitespace split); tags are the stripped tag strings of `get_tags_list`.
`Interaction` is a `models.UserInteraction` row. -/

structure Content where
  id : ℕ
  category : String
  tags : List String
  author : String
  body : List String
  createdAt : ℕ
  status : String
deriving DecidableEq

structure Interaction where
  userId : ℕ
  contentId : ℕ
  interactionType : String
  score : ℚ
  timestamp : ℕ
deriving DecidableEq

/-- The content catalog and the interaction store, as the recommendation
code reads them through the ORM. -/
structure ContentDB where
  contents : List Content
  interactions : List Interaction
deriving DecidableEq

/-! ### Character-level string helpers

Python string operations used by the engines, modelled on the character
list underlying a Lean `String` (kept structural so concrete instances
evaluate). -/

/-- ASCII lower-casing of one character, as Python `str.lower()` acts on the
texts of this code base. -/
def asciiLower (c : Char) : Char :=
  if 'A' ≤ c ∧ c ≤ 'Z' then Char.ofNat (c.toNat + 32) else c

/-- Python `str.lower()` (ASCII range). -/
def pyToLower (s : String) : String := String.mk (s.data.map asciiLower)

/-- Whether the needle occurs as a contiguous run in the haystack. -/
def containsChars (needle : List Char) : List Char → Bool
  | [] => needle.isEmpty
  | h :: hs => needle.isPrefixOf (h :: hs) || containsChars needle hs

/-- Accumulate maximal runs of non-space characters (`acc` holds the
current run reversed). -/
def wordRuns : List Char → List Char → List (List Char)
  | [], acc => if acc = [] then [] else [acc.reverse]
  | c :: cs, acc =>
    if c = ' ' then
      if acc = [] then wordRuns cs [] else acc.reverse :: wordRuns cs []
    else wordRuns cs (c :: acc)

/-! ### app.py: keyword extraction and content similarity -/

/-- The stop-word set of `extract_keywords` (app.py). -/
def stop_words : List String :=
  ["the", "a", "an", "and", "or", "but", "in", "on", "at", "to", "for", "of", "with", "by",
   "is", "are", "was", "were", "be", "been", "being", "have", "has", "had", "do", "does", "did",
   "will", "would", "could", "should", "may", "might", "can", "this", "that", "these", "those",
   "i", "you", "he", "she", "it", "we", "they", "me", "him", "her", "us", "them", "my", "your",
   "his", "its", "our", "their", "not", "no", "yes", "if", "when", "where", "why", "how"]

/-- Embeds `extract_keywords` (app.py): drop tokens of length at most 3 and
stop words, then take the `num_keywords` most frequent tokens by descending
count, ties by first occurrence. The argument is the already-normalised
token list of the text (see `Content.body`). -/
def extract_keywords (text : List String) (num_keywords : ℕ) : List String :=
  let words := text.filter (fun w => decide (3 < w.length) && !(decide (w ∈ stop_words)))
  mostCommon words num_keywords

/-- Embeds `calculate_content_similarity` (app.py): category match adds 0.4,
tag-set Jaccard overlap is weighted 0.3 (only when both tag sets are
non-empty), keyword-set Jaccard overlap is weighted 0.2 (only when both
keyword sets are non-empty), author match adds 0.1. -/
def calculate_content_similarity (content1 content2 : Content) : ℚ :=
  let catScore : ℚ := if content1.category = content2.category then 2/5 else 0
  let tags1 := content1.tags.toFinset
  let tags2 := content2.tags.toFinset
  let tagScore : ℚ :=
    if tags1.Nonempty ∧ tags2.Nonempty then
      3/10 * ((tags1 ∩ tags2).card : ℚ) / ((tags1 ∪ tags2).card : ℚ)
    else 0
  let keywords1 := (extract_keywords content1.body 10).toFinset
  let keywords2 := (extract_keywords content2.body 10).toFinset
  let keywordScore : ℚ :=
    if keywords1.Nonempty ∧ keywords2.Nonempty then
      1/5 * ((keywords1 ∩ keywords2).card : ℚ) / ((keywords1 ∪ keywords2).card : ℚ)
    else 0
  let authorScore : ℚ := if content1.author = content2.author then 1/10 else 0
  catScore + tagScore + keywordScore + authorScore

/-- A `get_content_recommendations` entry: the dict
`{'content': ..., 'similarity': ..., 'score': ...}` (app.py). -/
structure CRec where
  content : Content
  similarity : ℚ
  score : ℚ
deriving DecidableEq

/-- Embeds `get_content_recommendations` (app.py): score every other
published item against the given one, keep strictly positive similarities,
sort descending (stable on catalog order) and truncate. `limit` defaults to
5 in the source. -/
def get_content_recommendations (db : ContentDB) (content_id : ℕ) (limit : ℕ) :
    List CRec :=
  match db.contents.find? (fun c => decide (c.id = content_id)) with
  | none => []
  | some current =>
    let other := db.contents.filter
      (fun c => decide (c.id ≠ content_id) && decide (c.status = "Published"))
    let recommendations := other.filterMap (fun c =>
      let similarity := calculate_content_similarity current c
      if 0 < similarity then some (CRec.mk c similarity similarity) else none)
    (sortDescBy (fun r => r.similarity) recommendations).take limit

/-- A `get_trending_content` entry: the dict `{'content': ..., 'score': n}`
where `n` is the tag-hit count (app.py). -/
structure TRec where
  content : Content
  score : ℕ
deriving DecidableEq

/-- Embeds `get_trending_content` (app.py): take the 20 most recently
created published items, find the 5 most common tags among them, score each
item by how many of its tags are popular, keep strictly positive scores,
sort descending and truncate. `limit` defaults to 5 in the source. -/
def get_trending_content (db : ContentDB) (limit : ℕ) : List TRec :=
  let recent_content :=
    (sortDescBy (fun c => c.createdAt)
      (db.contents.filter (fun c => decide (c.status = "Published")))).take 20
  let all_tags := recent_content.foldr (fun c acc => c.tags ++ acc) []
  let popular_tags := mostCommon all_tags 5
  let trending := recent_content.filterMap (fun c =>
    let tag_score := (c.tags.filter (fun t => decide (t ∈ popular_tags))).length
    if 0 < tag_score then some (TRec.mk c tag_score) else none)
  (sortDescBy (fun r => r.score) trending).take limit

/-- Embeds `track_user_interaction` (app.py): append one `UserInteraction`
row with the given type and score to the store; nothing else changes.
`score` defaults to 1.0 in the source. -/
def track_user_interaction (store : List Interaction) (user_id content_id : ℕ)
    (interaction_type : String) (score : ℚ) (now : ℕ) : List Interaction :=
  store ++ [Interaction.mk user_id content_id interaction_type score now]

/-! ### app.py: user-item matrix and user-user cosine similarity -/

/-- Embeds `build_user_item_matrix` (app.py): from the interactions of the
last 30 days, build the dict-of-dicts `user -> item -> score` (plain
assignment: on repeated (user, item) pairs the last row wins) together with
the user and item lists. -/
def build_user_item_matrix (db : ContentDB) (now : ℕ) :
    List (ℕ × List (ℕ × ℚ)) × List ℕ × List ℕ :=
  let interactions := db.interactions.filter (fun i => decide (now - 30 ≤ i.timestamp))
  let matrix := interactions.foldl
    (fun m i => setTo m i.userId (setTo (lookupD m i.userId []) i.contentId i.score)) []
  (matrix, firstOccurrences (interactions.map (fun i => i.userId)),
   firstOccurrences (interactions.map (fun i => i.contentId)))

/-- Embeds `calculate_user_similarity` (app.py): 0 with no common item;
otherwise the dot product over the common items divided by
`(sum_squares1 * sum_squares2) ** 0.5`, where each `sum_squares` ranges over
ALL of that user's items (the full magnitudes), returning 0 when that
denominator is 0. -/
noncomputable def calculate_user_similarity (user1_items user2_items : List (ℕ × ℚ)) : ℝ :=
  let common_items := (firstOccurrences (user1_items.map Prod.fst)).filter
    (fun k => decide (k ∈ user2_items.map Prod.fst))
  if common_items = [] then 0
  else
    let sum_squares1 : ℚ := (user1_items.map (fun kv => kv.2 ^ 2)).sum
    let sum_squares2 : ℚ := (user2_items.map (fun kv => kv.2 ^ 2)).sum
    let sum_products : ℚ :=
      (common_items.map (fun k => lookupD user1_items k 0 * lookupD user2_items k 0)).sum
    let denominator := Real.sqrt ((sum_squares1 * sum_squares2 : ℚ) : ℝ)
    if denominator = 0 then 0 else ((sum_products : ℚ) : ℝ) / denominator

/-! ### app.py: collaborative filtering and the hybrid recommender -/

/-- The user-item matrix rows of the target's potential neighbours:
`user_similarities` of `get_collaborative_filtering_recommendations`
(app.py), the dict of every other user with strictly positive similarity to
the target, in user-list order. -/
noncomputable def app_cf_user_similarities (db : ContentDB) (now : ℕ)
    (target_user_id : ℕ) : List (ℕ × ℝ) :=
  let matrix := (build_user_item_matrix db now).1
  let users := (build_user_item_matrix db now).2.1
  users.filterMap (fun u =>
    if u ≠ target_user_id then
      let similarity :=
        calculate_user_similarity (lookupD matrix target_user_id []) (lookupD matrix u [])
      if 0 < similarity then some (u, similarity) else none
    else none)

/-- The scored candidates of `get_collaborative_filtering_recommendations`
(app.py): for every similar user, every item of that user's row the target
does not have gets `weight * rating` added, with
`weight = similarity / total_similarity`. -/
noncomputable def app_cf_scores (db : ContentDB) (now : ℕ) (target_user_id : ℕ) :
    List (ℕ × ℝ) :=
  let matrix := (build_user_item_matrix db now).1
  let target_user_items := lookupD matrix target_user_id []
  let user_similarities := app_cf_user_similarities db now target_user_id
  let total_similarity : ℝ := (user_similarities.map Prod.snd).sum
  user_similarities.foldl (fun acc us =>
    (lookupD matrix us.1 []).foldl (fun acc2 ir =>
      if ir.1 ∈ target_user_items.map Prod.fst then acc2
      else addTo acc2 ir.1 ((us.2 / total_similarity) * (ir.2 : ℝ))) acc) []

/-- Python's `round(x, 3)`, modelled as rounding to the nearest thousandth
(`round` rounds halves up; CPython's float `round` takes halves to even, a
difference only at exact half-thousandths). -/
noncomputable def round3 (x : ℝ) : ℝ := ((round (x * 1000) : ℤ) : ℝ) / 1000

/-- A CF recommendation entry: the dict `{'content': ..., 'cf_score': ...}`
(app.py). -/
structure CFRec where
  content : Content
  cf_score : ℝ

/-- Embeds `get_collaborative_filtering_recommendations` (app.py): empty
when the target is not in the matrix or the total similarity is 0; otherwise
the top-`limit` scored candidates, fetched back from the catalog in catalog
order with only published items kept, each with its rounded score. `limit`
defaults to 5 in the source. -/
noncomputable def get_collaborative_filtering_recommendations (db : ContentDB)
    (now : ℕ) (target_user_id : ℕ) (limit : ℕ) : List CFRec :=
  let matrix := (build_user_item_matrix db now).1
  if target_user_id ∉ matrix.map Prod.fst then []
  else
    let user_similarities := app_cf_user_similarities db now target_user_id
    let total_similarity : ℝ := (user_similarities.map Prod.snd).sum
    if total_similarity = 0 then []
    else
      let sorted_recommendations := sortDescBy Prod.snd (app_cf_scores db now target_user_id)
      let content_ids := (sorted_recommendations.take limit).map Prod.fst
      let recommended_content := db.contents.filter
        (fun c => decide (c.id ∈ content_ids) && decide (c.status = "Published"))
      recommended_content.map (fun c => CFRec.mk c (round3 (lookupD sorted_recommendations c.id 0)))

/-- A hybrid recommendation entry of app.py's `get_hybrid_recommendations`:
the dict with the content, both partial scores and the blended score. -/
structure HRec where
  content : Content
  content_score : ℚ
  cf_score : ℝ
  hybrid_score : ℝ

/-- Embeds `get_hybrid_recommendations` (app.py): content-based entries
enter with `similarity * 0.6`; CF entries add `cf_score * 0.4` to an
existing entry or enter fresh with `cf_score * 0.4`; the merged dict values
are sorted by descending hybrid score and truncated. `limit` defaults to 5
in the source. -/
noncomputable def get_hybrid_recommendations (db : ContentDB) (now : ℕ)
    (user_id : ℕ) (content_id : ℕ) (limit : ℕ) : List HRec :=
  let content_based := get_content_recommendations db content_id (limit / 2 + 1)
  let cf_based := get_collaborative_filtering_recommendations db now user_id (limit / 2 + 1)
  let base := content_based.map (fun r =>
    HRec.mk r.content r.similarity 0 ((r.similarity : ℝ) * (6/10)))
  let all_recommendations := cf_based.foldl (fun acc r =>
    if (acc.map (fun h => h.content.id)).contains r.content.id then
      acc.map (fun h =>
        if h.content.id = r.content.id then
          HRec.mk h.content h.content_score r.cf_score (h.hybrid_score + r.cf_score * (4/10))
        else h)
    else acc ++ [HRec.mk r.content 0 r.cf_score (r.cf_score * (4/10))]) base
  (sortDescBy (fun h => h.hybrid_score) all_recommendations).take limit

/-! ### recommendation_engine.py: behaviour analysis -/

/-- The per-type interaction weights of `analyze_user_behavior`
(recommendation_engine.py); unknown types get 1.0 via `.get(..., 1.0)`. -/
def interaction_weight : String → ℚ := fun t =>
  if t = "view" then 1
  else if t = "edit" then 3
  else if t = "like" then 2
  else if t = "share" then 5/2
  else if t = "create" then 4
  else 1

/-- The derived preference profile returned by `analyze_user_behavior`. -/
structure UserPreferenceProfile where
  categories : List (String × ℚ)
  authors : List (String × ℚ)
  tags : List (String × ℚ)
  total_interactions : ℕ
  recent_activity : ℕ
deriving DecidableEq

/-- Embeds `_get_default_preferences` (recommendation_engine.py). -/
def _get_default_preferences : UserPreferenceProfile :=
  UserPreferenceProfile.mk [] [] [] 0 0

/-- The three raw preference buckets of `analyze_user_behavior`
(recommendation_engine.py): fold over the interactions of the last 90 days
sorted by ascending timestamp; an interaction whose content is missing or
unpublished is skipped (but still counts towards the decay length `n`); the
contribution is `type weight * 0.95 ^ (n - i - 1) * interaction score`,
added to the category and author buckets, and at half weight to the bucket
of each (lower-cased) tag. -/
def behavior_buckets (db : ContentDB) (now : ℕ) (user_id : ℕ) :
    List (String × ℚ) × List (String × ℚ) × List (String × ℚ) :=
  let interactions := db.interactions.filter
    (fun i => decide (i.userId = user_id) && decide (now - 90 ≤ i.timestamp))
  let n := interactions.length
  (sortAscBy (fun i => i.timestamp) interactions).enum.foldl (fun b p =>
    match db.contents.find? (fun c => decide (c.id = p.2.contentId)) with
    | none => b
    | some content =>
      if content.status ≠ "Published" then b
      else
        let time_weight : ℚ := (19/20) ^ (n - p.1 - 1)
        let total_weight := interaction_weight p.2.interactionType * time_weight * p.2.score
        (addTo b.1 content.category total_weight,
         addTo b.2.1 content.author total_weight,
         content.tags.foldl (fun acc t => addTo acc (pyToLower t) (total_weight * (1/2))) b.2.2))
    ([], [], [])

/-- Embeds `analyze_user_behavior` (recommendation_engine.py): the default
profile when the 90-day window holds no interactions; otherwise each bucket
normalised by its own maximum value. When some non-empty bucket has maximum
0, the division `v / 0.0` raises `ZeroDivisionError`, which the enclosing
`except` turns into the default profile. -/
def analyze_user_behavior (db : ContentDB) (now : ℕ) (user_id : ℕ) :
    UserPreferenceProfile :=
  let interactions := db.interactions.filter
    (fun i => decide (i.userId = user_id) && decide (now - 90 ≤ i.timestamp))
  if interactions = [] then _get_default_preferences
  else
    let (category_scores, author_scores, tag_scores) := behavior_buckets db now user_id
    let max_category_score := listMax (category_scores.map Prod.snd)
    let max_author_score := listMax (author_scores.map Prod.snd)
    let max_tag_score := listMax (tag_scores.map Prod.snd)
    if (category_scores ≠ [] ∧ max_category_score = 0) ∨
       (author_scores ≠ [] ∧ max_author_score = 0) ∨
       (tag_scores ≠ [] ∧ max_tag_score = 0) then _get_default_preferences
    else
      UserPreferenceProfile.mk
        (category_scores.map (fun kv => (kv.1, kv.2 / max_category_score)))
        (author_scores.map (fun kv => (kv.1, kv.2 / max_author_score)))
        (tag_scores.map (fun kv => (kv.1, kv.2 / max_tag_score)))
        interactions.length
        ((interactions.filter (fun i => decide (now - 7 ≤ i.timestamp))).length)

/-! ### recommendation_engine.py: strategies and the hybrid combiner -/

/-- Embeds `get_preference_based_recommendations`
(recommendation_engine.py): over the published items the user has not
interacted with, score category preference (weight 2.0), author preference
(weight 1.5), each tag preference (weight 1.0) and a recency boost
`max(0, 1 - days_old / 30) * 0.2`, then sort descending and truncate.
`num_recommendations` defaults to 10 in the source. -/
def get_preference_based_recommendations (db : ContentDB) (now : ℕ) (user_id : ℕ)
    (user_preferences : UserPreferenceProfile) (num_recommendations : ℕ) : List Content :=
  let interacted_content_ids :=
    (db.interactions.filter (fun i => decide (i.userId = user_id))).map (fun i => i.contentId)
  let all_content := db.contents.filter
    (fun c => decide (c.status = "Published") && !(decide (c.id ∈ interacted_content_ids)))
  let content_scores := all_content.map (fun c =>
    let catScore := (if c.category ∈ user_preferences.categories.map Prod.fst then
      lookupD user_preferences.categories c.category 0 * 2 else 0)
    let authorScore := (if c.author ∈ user_preferences.authors.map Prod.fst then
      lookupD user_preferences.authors c.author 0 * (3/2) else 0)
    let tagScore := (c.tags.map (fun t =>
      if pyToLower t ∈ user_preferences.tags.map Prod.fst then
        lookupD user_preferences.tags (pyToLower t) 0 else 0)).sum
    let days_old := now - c.createdAt
    let recency_boost := max 0 (1 - (days_old : ℚ) / 30) * (1/5)
    (c, catScore + authorScore + tagScore + recency_boost))
  ((sortDescBy Prod.snd content_scores).take num_recommendations).map Prod.fst

/-- Embeds `_get_trending_recommendations` (recommendation_engine.py):
published items created in the last 30 days, ordered by descending
interaction count (over the whole store) and then by descending creation
date, truncated. `num_recommendations` defaults to 10 in the source. -/
def _get_trending_recommendations (db : ContentDB) (now : ℕ)
    (num_recommendations : ℕ) : List Content :=
  let candidates := db.contents.filter
    (fun c => decide (c.status = "Published") && decide (now - 30 ≤ c.createdAt))
  let counted := candidates.map (fun c =>
    (c, (db.interactions.filter (fun i => decide (i.contentId = c.id))).length))
  ((sortDescBy2 Prod.snd (fun p => p.1.createdAt) counted).take num_recommendations).map Prod.fst

/-- The distinct user ids of the interaction store, in scan order:
`users` of `get_collaborative_filtering_recommendations`
(recommendation_engine.py). -/
def engine_cf_users (db : ContentDB) : List ℕ :=
  firstOccurrences (db.interactions.map (fun i => i.userId))

/-- The distinct content ids of the interaction store, in scan order. -/
def engine_cf_contents (db : ContentDB) : List ℕ :=
  firstOccurrences (db.interactions.map (fun i => i.contentId))

/-- One cell of the engine's user-content interaction matrix: the sum of the
scores of all interactions of that user with that content
(`interaction_matrix[u, c] += score`). -/
def engine_matrix_entry (db : ContentDB) (u c : ℕ) : ℚ :=
  ((db.interactions.filter
    (fun i => decide (i.userId = u) && decide (i.contentId = c))).map (fun i => i.score)).sum

/-- The squared norm of one user's matrix row, over all content columns. -/
def engine_row_norm_sq (db : ContentDB) (u : ℕ) : ℚ :=
  ((engine_cf_contents db).map (fun c => engine_matrix_entry db u c ^ 2)).sum

/-- The dot product of two users' matrix rows. -/
def engine_row_dot (db : ContentDB) (u v : ℕ) : ℚ :=
  ((engine_cf_contents db).map
    (fun c => engine_matrix_entry db u c * engine_matrix_entry db v c)).sum

/-- sklearn's `cosine_similarity` on two rows of the engine's interaction
matrix: each row is L2-normalised (a zero row stays zero) and the dot
product taken, so the value is `dot / (|u| * |v|)` and 0 when either row is
zero. -/
noncomputable def engine_cosine_similarity (db : ContentDB) (u v : ℕ) : ℝ :=
  if engine_row_norm_sq db u = 0 ∨ engine_row_norm_sq db v = 0 then 0
  else ((engine_row_dot db u v : ℚ) : ℝ) /
    (Real.sqrt ((engine_row_norm_sq db u : ℚ) : ℝ) *
     Real.sqrt ((engine_row_norm_sq db v : ℚ) : ℝ))

/-- The selected neighbours of the engine's collaborative filtering: every
other user with similarity strictly above 0.1, sorted by descending
similarity (stable), top 10. -/
noncomputable def engine_cf_similar_users (db : ContentDB) (user_id : ℕ) :
    List (ℕ × ℝ) :=
  let similar_users := (engine_cf_users db).filterMap (fun u =>
    if u ≠ user_id then
      let similarity := engine_cosine_similarity db user_id u
      if (1/10 : ℝ) < similarity then some (u, similarity) else none
    else none)
  (sortDescBy Prod.snd similar_users).take 10

/-- The content ids the target user has interacted with (the set
`target_user_interactions` of the engine's collaborative filtering). -/
def engine_target_interactions (db : ContentDB) (user_id : ℕ) : List ℕ :=
  (db.interactions.filter (fun i => decide (i.userId = user_id))).map (fun i => i.contentId)

/-- The scored candidates of the engine's collaborative filtering
(`content_scores`): for every selected neighbour, every interaction of
theirs whose content the target has not interacted with adds
`similarity * interaction_score` — the raw similarity, with no division by
the total similarity. -/
noncomputable def engine_cf_scores (db : ContentDB) (user_id : ℕ) : List (ℕ × ℝ) :=
  let target_set := engine_target_interactions db user_id
  (engine_cf_similar_users db user_id).foldl (fun acc us =>
    (db.interactions.filter (fun i => decide (i.userId = us.1))).foldl (fun acc2 i =>
      if i.contentId ∈ target_set then acc2
      else addTo acc2 i.contentId (us.2 * (i.score : ℝ))) acc) []

/-- Embeds `get_collaborative_filtering_recommendations`
(recommendation_engine.py): falls back to trending when there are fewer than
2 distinct users or contents or the target is unknown; otherwise fetches the
top-`num_recommendations` scored candidates back from the catalog in catalog
order, published only. `num_recommendations` defaults to 10 in the
source. -/
noncomputable def engine_get_collaborative_filtering_recommendations
    (db : ContentDB) (now : ℕ) (user_id : ℕ) (num_recommendations : ℕ) : List Content :=
  if (engine_cf_users db).length < 2 ∨ (engine_cf_contents db).length < 2 then
    _get_trending_recommendations db now num_recommendations
  else if user_id ∉ engine_cf_users db then
    _get_trending_recommendations db now num_recommendations
  else
    let recommended_ids :=
      ((sortDescBy Prod.snd (engine_cf_scores db user_id)).take num_recommendations).map Prod.fst
    db.contents.filter
      (fun c => decide (c.id ∈ recommended_ids) && decide (c.status = "Published"))

/-- The combination step of `get_hybrid_recommendations`
(recommendation_engine.py), parametrised over the outputs of the three
sub-strategies (the content-based sub-strategy's TF-IDF pipeline lies
outside this embedding): content-based entries contribute
`0.4 * (1 - i * 0.05)` at rank `i` (first occurrence only); collaborative
and preference-based entries contribute `0.3 * (1 - i * 0.05)`, creating the
entry when the id is unseen and otherwise adding to the existing score; the
top `num_recommendations` ids by combined score are fetched back from the
catalog in catalog order. -/
def engine_hybrid_combine (content_based collaborative preference_based : List Content)
    (catalog : List Content) (num_recommendations : ℕ) : List Content :=
  let st1 := content_based.enum.foldl (fun st p =>
    if p.2.id ∈ st.2 then st
    else (addTo st.1 p.2.id ((2/5) * (1 - (p.1 : ℚ) * (1/20))), st.2 ++ [p.2.id]))
    (([] : List (ℕ × ℚ)), ([] : List ℕ))
  let step := fun (st : List (ℕ × ℚ) × List ℕ) (p : ℕ × Content) =>
    if p.2.id ∉ st.2 then
      (addTo st.1 p.2.id ((3/10) * (1 - (p.1 : ℚ) * (1/20))), st.2 ++ [p.2.id])
    else if p.2.id ∈ st.1.map Prod.fst then
      (addTo st.1 p.2.id ((3/10) * (1 - (p.1 : ℚ) * (1/20))), st.2)
    else st
  let st2 := collaborative.enum.foldl step st1
  let st3 := preference_based.enum.foldl step st2
  let final_content_ids := ((sortDescBy Prod.snd st3.1).take num_recommendations).map Prod.fst
  catalog.filter (fun c => decide (c.id ∈ final_content_ids))

/-- The action table of `track_recommendation_feedback`
(recommendation_engine.py): each feedback action maps to an interaction type
and a score delta; note the negative score of `dismissed`. -/
def action_mapping : String → Option (String × ℚ) := fun action =>
  if action = "clicked" then some ("view", 1)
  else if action = "liked" then some ("like", 2)
  else if action = "shared" then some ("share", 5/2)
  else if action = "dismissed" then some ("view", -1/2)
  else if action = "saved" then some ("like", 3)
  else none

/-- Embeds `track_recommendation_feedback` (recommendation_engine.py): an
unknown action changes nothing; otherwise, when an interaction with the same
user, content and mapped type exists, the FIRST such row gets the score
added onto it and its timestamp refreshed, and only when none exists is a
new row appended. -/
def track_recommendation_feedback (store : List Interaction) (user_id content_id : ℕ)
    (action : String) (now : ℕ) : List Interaction :=
  match action_mapping action with
  | none => store
  | some ts =>
    let sameRow := fun i : Interaction =>
      decide (i.userId = user_id) && decide (i.contentId = content_id) &&
      decide (i.interactionType = ts.1)
    if store.any sameRow then
      updateFirst sameRow
        (fun i => Interaction.mk i.userId i.contentId i.interactionType (i.score + ts.2) now)
        store
    else store ++ [Interaction.mk user_id content_id ts.1 ts.2 now]

/-! ### user_type_classifier.py: content classification

Texts stay Lean `String`s; Python's `kw in text` substring test is
`occursIn`; `str.split()` is modelled as splitting on spaces and dropping
empty pieces. The three regex bonuses of each score function are taken as
boolean inputs (`TechPatterns` / `BusinessPatterns`), standing for whether
the corresponding regex matches the text. -/

/-- Substring occurrence: `needle in haystack` for Python strings (the
needle is never empty in the classifier's keyword tables). -/
def occursIn (needle haystack : String) : Bool :=
  containsChars needle.data haystack.data

/-- Python `str.split()`: split on runs of whitespace, dropping empty pieces
(whitespace other than plain spaces is not modelled). -/
def pySplit (s : String) : List String :=
  (wordRuns s.data []).map (fun cs => String.mk cs)

/-- The `programming` keyword group of `UserTypeClassifier.tech_keywords`. -/
def tech_programming : List String :=
  ["code", "programming", "development", "software", "api", "database",
   "algorithm", "framework", "library", "python", "javascript", "react",
   "node.js", "sql", "html", "css", "git", "github", "docker", "kubernetes",
   "cloud", "aws", "azure", "deployment", "server", "backend", "frontend",
   "full-stack", "devops", "ci/cd", "testing", "debugging", "refactoring"]

/-- The `tech_concepts` keyword group of `UserTypeClassifier.tech_keywords`. -/
def tech_concepts : List String :=
  ["machine learning", "ai", "artificial intelligence", "data science",
   "cybersecurity", "blockchain", "iot", "automation", "integration",
   "architecture", "microservices", "scalability", "performance",
   "optimization", "analytics", "big data", "neural network"]

/-- The `technical_roles` keyword group of `UserTypeClassifier.tech_keywords`. -/
def technical_roles : List String :=
  ["developer", "engineer", "programmer", "architect", "devops",
   "data scientist", "analyst", "technical lead", "cto", "tech team"]

/-- The `strategy` keyword group of `UserTypeClassifier.business_keywords`. -/
def business_strategy : List String :=
  ["strategy", "business model", "revenue", "profit", "growth", "market",
   "customer", "client", "sales", "marketing", "roi", "kpi", "metrics",
   "budget", "finance", "investment", "stakeholder", "partnership"]

/-- The `management` keyword group of `UserTypeClassifier.business_keywords`. -/
def business_management : List String :=
  ["management", "leadership", "team", "project management", "agile",
   "scrum", "planning", "roadmap", "milestone", "delivery", "timeline",
   "resource", "allocation", "efficiency", "productivity", "workflow"]

/-- The `business_roles` keyword group of `UserTypeClassifier.business_keywords`. -/
def business_roles : List String :=
  ["manager", "director", "ceo", "cfo", "cmo", "vp", "executive",
   "business analyst", "product manager", "project manager", "consultant",
   "stakeholder", "decision maker"]

/-- The categories mapped to `tech` in `UserTypeClassifier.category_mapping`. -/
def tech_categories : List String :=
  ["Tutorial", "Documentation", "Technical Guide", "API Reference"]

/-- The categories mapped to `business` in
`UserTypeClassifier.category_mapping`. -/
def business_categories : List String :=
  ["Business Plan", "Market Analysis", "Strategy Document", "Financial Report"]

/-- The outcomes of the three technical regex checks of
`_calculate_tech_score`: code keywords, SQL keywords, method-call shapes. -/
structure TechPatterns where
  codeKeyword : Bool
  sqlKeyword : Bool
  methodCall : Bool
deriving DecidableEq

/-- The outcomes of the three business regex checks of
`_calculate_business_score`: financial figures, growth-percentage phrases,
finance words. -/
structure BusinessPatterns where
  financialFigure : Bool
  growthPercent : Bool
  financeWord : Bool
deriving DecidableEq

/-- The number of keywords of the group occurring in the text
(`sum(1 for keyword in keywords if keyword in text)`). -/
def keyword_matches (keywords : List String) (text : String) : ℕ :=
  (keywords.filter (fun kw => occursIn kw text)).length

/-- Embeds `_calculate_tech_score` (user_type_classifier.py): 0.0 outright
on an empty word list; otherwise 0.4 for a tech category, per-group keyword
weights 0.08 / 0.06 / 0.04, regex bonuses 0.2 / 0.15 / 0.1, capped at 1. -/
def _calculate_tech_score (text : String) (category : String) (pat : TechPatterns) : ℚ :=
  if (pySplit text).length = 0 then 0
  else
    let score : ℚ :=
      (if category ∈ tech_categories then 2/5 else 0) +
      (keyword_matches tech_programming text : ℚ) * (2/25) +
      (keyword_matches tech_concepts text : ℚ) * (3/50) +
      (keyword_matches technical_roles text : ℚ) * (1/25) +
      (if pat.codeKeyword then 1/5 else 0) +
      (if pat.sqlKeyword then 3/20 else 0) +
      (if pat.methodCall then 1/10 else 0)
    min score 1

/-- Embeds `_calculate_business_score` (user_type_classifier.py): 0.0
outright on an empty word list; otherwise 0.4 for a business category,
per-group keyword weights 0.08 / 0.06 / 0.04, regex bonuses
0.15 / 0.1 / 0.1, capped at 1. -/
def _calculate_business_score (text : String) (category : String)
    (pat : BusinessPatterns) : ℚ :=
  if (pySplit text).length = 0 then 0
  else
    let score : ℚ :=
      (if category ∈ business_categories then 2/5 else 0) +
      (keyword_matches business_strategy text : ℚ) * (2/25) +
      (keyword_matches business_management text : ℚ) * (3/50) +
      (keyword_matches business_roles text : ℚ) * (1/25) +
      (if pat.financialFigure then 3/20 else 0) +
      (if pat.growthPercent then 1/10 else 0) +
      (if pat.financeWord then 1/10 else 0)
    min score 1

/-- The combined lower-cased text analysed by `classify_content`:
`f"{title} {content} {' '.join(tags or [])}".lower()`. -/
def classifier_full_text (title content : String) (tags : List String) : String :=
  pyToLower (title ++ " " ++ content ++ " " ++ String.intercalate " " tags)

/-- Embeds `classify_content` (user_type_classifier.py): label `tech` when
the tech score strictly beats the business score and exceeds 0.3, `business`
symmetrically, and `mixed` otherwise. -/
def classify_content (title content category : String) (tags : List String)
    (tpat : TechPatterns) (bpat : BusinessPatterns) : String :=
  let full_text := classifier_full_text title content tags
  let tech_score := _calculate_tech_score full_text category tpat
  let business_score := _calculate_business_score full_text category bpat
  if business_score < tech_score ∧ 3/10 < tech_score then "tech"
  else if tech_score < business_score ∧ 3/10 < business_score then "business"
  else "mixed"

/-! ### product_recommendation_engine.py: data model

`Product`, `Order`, `OrderItem`, `CartItem` carry the columns the engine's
queries read (foreign keys are resolved by id lookup; the join through the
`users` table only requires the user to exist and is not modelled
separately). User ids are `ℕ` like all ids. -/

structure Product where
  id : ℕ
  name : String
  category : String
  createdAt : ℕ
  isActive : Bool
deriving DecidableEq

structure Order where
  id : ℕ
  userId : ℕ
  status : String
deriving DecidableEq

structure OrderItem where
  orderId : ℕ
  productId : ℕ
  quantity : ℚ
deriving DecidableEq

structure CartItem where
  userId : ℕ
  productId : ℕ
  quantity : ℚ
deriving DecidableEq

/-- The product catalog, orders and carts as the product engine reads them. -/
structure ProdDB where
  products : List Product
  orders : List Order
  orderItems : List OrderItem
  cartItems : List CartItem
deriving DecidableEq

/-- A product recommendation entry: the dict
`{'product': ..., 'score': ..., 'reason': ...}`. -/
structure PRec where
  product : Product
  score : ℚ
  reason : String
deriving DecidableEq

/-! ### product_recommendation_engine.py: the engine -/

/-- Embeds `build_user_product_matrix` (product_recommendation_engine.py):
completed-order quantities accumulate at full weight, cart quantities at
weight 0.3, into the dict-of-dicts `user -> product -> score` (the SQL
GROUP BY pre-aggregates rows; accumulating row by row yields the same
totals). -/
def build_user_product_matrix (db : ProdDB) : List (ℕ × List (ℕ × ℚ)) :=
  let withPurchases := db.orderItems.foldl (fun m oi =>
    match db.orders.find? (fun o => decide (o.id = oi.orderId)) with
    | none => m
    | some o =>
      if o.status = "completed" then
        setTo m o.userId (addTo (lookupD m o.userId []) oi.productId oi.quantity)
      else m) []
  db.cartItems.foldl (fun m ci =>
    setTo m ci.userId (addTo (lookupD m ci.userId []) ci.productId (ci.quantity * (3/10))))
    withPurchases

/-- Embeds `calculate_user_similarity`
(product_recommendation_engine.py). The source intends restricted cosine
similarity, but line 79 computes
`magnitude2 = math.sqrt(u2 ** 2 for u2 in user2_vector)`: `math.sqrt`
applied to a generator expression raises `TypeError`, the enclosing `except`
catches it and returns 0.0. So the empty-intersection branch returns 0.0 and
every other call returns 0.0 through the exception handler: the function is
constantly 0. -/
def prod_calculate_user_similarity (user1_products user2_products : List (ℕ × ℚ)) : ℚ :=
  let common_products := (firstOccurrences (user1_products.map Prod.fst)).filter
    (fun k => decide (k ∈ user2_products.map Prod.fst))
  if common_products = [] then 0
  else 0

/-- `total_sold` of the `get_popular_products` query: the summed quantity of
the product over order items of completed orders, 0 when never sold. -/
def total_sold (db : ProdDB) (product_id : ℕ) : ℚ :=
  (db.orderItems.filterMap (fun oi =>
    if oi.productId = product_id then
      match db.orders.find? (fun o => decide (o.id = oi.orderId)) with
      | some o => if o.status = "completed" then some oi.quantity else none
      | none => none
    else none)).sum

/-- Embeds `get_popular_products` (product_recommendation_engine.py): active
products ordered by descending total completed-order quantity, ties by
descending creation date, truncated; each surviving row is fetched back by
id and wrapped with score 0.5. `limit` defaults to 5 in the source. -/
def get_popular_products (db : ProdDB) (limit : ℕ) : List PRec :=
  let rows := (sortDescBy2 (fun p => total_sold db p.id) (fun p => p.createdAt)
    (db.products.filter (fun p => p.isActive))).take limit
  rows.filterMap (fun p =>
    (db.products.find? (fun q => decide (q.id = p.id))).map
      (fun product => PRec.mk product (1/2) "Popular product"))

/-- The selected neighbours of the product engine's user-based
collaborative filtering: every other user whose similarity to the target
exceeds 0.1, sorted by descending similarity, top 10. -/
def prod_top_similar_users (matrix : List (ℕ × List (ℕ × ℚ)))
    (target_user_id : ℕ) : List (ℕ × ℚ) :=
  let target_user_products := lookupD matrix target_user_id []
  let user_similarities := matrix.filterMap (fun uv =>
    if uv.1 ≠ target_user_id then
      let similarity := prod_calculate_user_similarity target_user_products uv.2
      if 1/10 < similarity then some (uv.1, similarity) else none
    else none)
  (sortDescBy Prod.snd user_similarities).take 10

/-- The scored candidates of the product engine's user-based collaborative
filtering (`product_scores`): every product of a selected neighbour that the
target does not have gets `score * (similarity / total_similarity)` added. -/
def prod_user_based_scores (matrix : List (ℕ × List (ℕ × ℚ)))
    (target_user_id : ℕ) : List (ℕ × ℚ) :=
  let target_user_products := lookupD matrix target_user_id []
  let top_similar_users := prod_top_similar_users matrix target_user_id
  let total_similarity := (top_similar_users.map Prod.snd).sum
  top_similar_users.foldl (fun acc us =>
    (lookupD matrix us.1 []).foldl (fun acc2 pr =>
      if pr.1 ∈ target_user_products.map Prod.fst then acc2
      else addTo acc2 pr.1 (pr.2 * (us.2 / total_similarity))) acc) []

/-- Embeds `get_user_based_recommendations`
(product_recommendation_engine.py): rebuild the matrix when empty; fall back
to popular products when the target is unknown or no neighbour passes the
0.1 similarity threshold; otherwise score candidate products with
`score * (similarity / total_similarity)` over the top-10 neighbours,
excluding the target's own products, and fetch the top `limit` back,
keeping active ones. `limit` defaults to 5 in the source. -/
def get_user_based_recommendations (db : ProdDB)
    (matrix0 : List (ℕ × List (ℕ × ℚ))) (target_user_id : ℕ) (limit : ℕ) : List PRec :=
  let matrix := if matrix0 = [] then build_user_product_matrix db else matrix0
  if target_user_id ∉ matrix.map Prod.fst then get_popular_products db limit
  else
    let top_similar_users := prod_top_similar_users matrix target_user_id
    if top_similar_users = [] then get_popular_products db limit
    else
      ((sortDescBy Prod.snd (prod_user_based_scores matrix target_user_id)).take
        limit).filterMap (fun ps =>
        match db.products.find? (fun p => decide (p.id = ps.1)) with
        | some product =>
          if product.isActive then
            some (PRec.mk product ps.2 "Users with similar preferences also liked this product")
          else none
        | none => none)

/-- Embeds `get_category_based_recommendations`
(product_recommendation_engine.py): the user's top-3 categories by completed
purchase quantity; within each, the newest active unpurchased products,
appended with score 0.8 while fewer than `limit` entries are collected;
popular products when the user has no completed purchases. `limit` defaults
to 5 in the source. -/
def get_category_based_recommendations (db : ProdDB) (user_id : ℕ) (limit : ℕ) :
    List PRec :=
  let catTotals := db.orderItems.foldl (fun acc oi =>
    match db.orders.find? (fun o => decide (o.id = oi.orderId)) with
    | none => acc
    | some o =>
      if o.userId = user_id ∧ o.status = "completed" then
        match db.products.find? (fun p => decide (p.id = oi.productId)) with
        | some p => addTo acc p.category oi.quantity
        | none => acc
      else acc) []
  let preferred_categories := ((sortDescBy Prod.snd catTotals).take 3).map Prod.fst
  if preferred_categories = [] then get_popular_products db limit
  else
    let purchased_product_ids := db.orderItems.filterMap (fun oi =>
      match db.orders.find? (fun o => decide (o.id = oi.orderId)) with
      | some o =>
        if o.userId = user_id ∧ o.status = "completed" then some oi.productId else none
      | none => none)
    let recs := preferred_categories.foldl (fun recommended category =>
      let products := (sortDescBy (fun p => p.createdAt)
        (db.products.filter (fun p => decide (p.category = category) && p.isActive &&
          !(decide (p.id ∈ purchased_product_ids))))).take limit
      products.foldl (fun r product =>
        if r.length < limit then
          r ++ [PRec.mk product (4/5) ("Based on your interest in " ++ category)]
        else r) recommended) []
    recs.take limit

/-- Embeds `get_hybrid_recommendations`
(product_recommendation_engine.py): user-based entries enter first with
their score boosted by 1.2; category-based entries fill while fewer than
`limit` are collected; popular products fill any remaining slots; duplicates
by product id are dropped throughout; the result is truncated to `limit`.
`limit` defaults to 5 in the source. -/
def prod_get_hybrid_recommendations (db : ProdDB)
    (matrix : List (ℕ × List (ℕ × ℚ))) (user_id : ℕ) (limit : ℕ) : List PRec :=
  let user_based := get_user_based_recommendations db matrix user_id (limit / 2 + 1)
  let category_based := get_category_based_recommendations db user_id (limit / 2 + 1)
  let st1 := user_based.foldl (fun st r =>
    if r.product.id ∈ st.2 then st
    else (st.1 ++ [PRec.mk r.product (r.score * (6/5)) r.reason], st.2 ++ [r.product.id]))
    (([] : List PRec), ([] : List ℕ))
  let st2 := category_based.foldl (fun st r =>
    if r.product.id ∉ st.2 ∧ st.1.length < limit then
      (st.1 ++ [r], st.2 ++ [r.product.id])
    else st) st1
  let st3 :=
    if st2.1.length < limit then
      (get_popular_products db (limit - st2.1.length)).foldl (fun st r =>
        if r.product.id ∉ st.2 then (st.1 ++ [r], st.2 ++ [r.product.id]) else st) st2
    else st2
  st3.1.take limit

/-! ### Claim C2 -/

/-- A one-user, one-product store: user 5 has a completed order for
product 1, which is also the top-selling active product. -/
def exampleProdDB : ProdDB :=
  ProdDB.mk [Product.mk 1 "Widget" "A" 10 true] [Order.mk 1 5 "completed"]
    [OrderItem.mk 1 1 1] []

/-- Four active products in category A; user 5 has one completed order,
for product 1 only. -/
def hybridProdDB : ProdDB :=
  ProdDB.mk
    [Product.mk 1 "W1" "A" 10 true, Product.mk 2 "W2" "A" 9 true,
     Product.mk 3 "W3" "A" 8 true, Product.mk 4 "W4" "A" 7 true]
    [Order.mk 1 5 "completed"] [OrderItem.mk 1 1 1] []

/-- Modelled from the spec sentence of C3: a candidate item's
similarity-weighted average score over the selected neighbours — each
neighbour's rating of the item times
`weight = similarity / sum(all selected similarities)`. -/
def cf_weighted_average_score {F : Type} [DivisionRing F] (neighbors : List (ℕ × F))
    (rating : ℕ → ℕ → F) (item : ℕ) : F :=
  (neighbors.map (fun us => us.2 / (neighbors.map Prod.snd).sum * rating us.1 item)).sum

/-- Two published items; target user 10 viewed item 1 (score 1); user 20
interacted with item 1 (score 3) and item 2 (score 4). -/
def cfContentDB : ContentDB :=
  ContentDB.mk
    [Content.mk 1 "Blog Post" [] "ann" [] 100 "Published",
     Content.mk 2 "Blog Post" [] "ann" [] 100 "Published"]
    [Interaction.mk 10 1 "view" 1 50, Interaction.mk 20 1 "view" 3 50,
     Interaction.mk 20 2 "view" 4 50]

/-! ### Claim C7 -/

/-- The max-normalisation invariant claimed for one preference bucket: every
weight lies in [0, 1] and a non-empty bucket attains the weight 1. -/
def BucketOK (l : List (String × ℚ)) : Prop :=
  (∀ kv ∈ l, 0 ≤ kv.2 ∧ kv.2 ≤ 1) ∧ (l ≠ [] → ∃ kv ∈ l, kv.2 = 1)

def c7DB : ContentDB :=
  ContentDB.mk
    [Content.mk 1 "news" ["ai"] "alice" [] 100 "Published"]
    [Interaction.mk 7 1 "view" 1 100]

/-- Stored interactions of the C7 counterexample: a view with score 1 on a
content of category x at day 1, and a view with score -1/2 (the stored score
after a dismissed feedback) on a content of category y at day 2. -/
def c7BadDB : ContentDB :=
  ContentDB.mk
    [Content.mk 1 "x" [] "alice" [] 100 "Published",
     Content.mk 2 "y" [] "bob" [] 100 "Published"]
    [Interaction.mk 7 1 "view" 1 1, Interaction.mk 7 2 "view" (-1/2) 2]

/-! ### Basic lemmas about the helpers -/

theorem sortDescBy_perm {α β : Type} [LinearOrder β] (f : α → β) (l : List α) :
    (sortDescBy f l).Perm l :=
  List.perm_insertionSort _ l

theorem mem_sortDescBy {α β : Type} [LinearOrder β] {f : α → β} {l : List α} {x : α} :
    x ∈ sortDescBy f l ↔ x ∈ l :=
  (sortDescBy_perm f l).mem_iff

theorem sortDescBy_pairwise {α β : Type} [LinearOrder β] (f : α → β) (l : List α) :
    (sortDescBy f l).Pairwise (fun a b => f b ≤ f a) := by
  letI : IsTotal α (fun a b => f b ≤ f a) := ⟨fun a b => le_total (f b) (f a)⟩
  letI : IsTrans α (fun a b => f b ≤ f a) := ⟨fun a b c hab hbc => le_trans hbc hab⟩
  exact List.sorted_insertionSort _ l

theorem sortDescBy2_perm {α β γ : Type} [LinearOrder β] [LinearOrder γ]
    (f : α → β) (g : α → γ) (l : List α) : (sortDescBy2 f g l).Perm l :=
  List.perm_insertionSort _ l

theorem DescendingBy_sortDescBy_take {α β : Type} [LinearOrder β] (f : α → β)
    (l : List α) (n : ℕ) : DescendingBy f ((sortDescBy f l).take n) := by
  have h : ((sortDescBy f l).take n).Pairwise (fun a b => f b ≤ f a) :=
    (sortDescBy_pairwise f l).sublist (List.take_sublist n _)
  exact h.chain'

/-! ### Lemmas about association lists and the fold-accumulation pattern -/

theorem lookupD_nil {κ β : Type} [DecidableEq κ] (k : κ) (d : β) :
    lookupD ([] : List (κ × β)) k d = d := rfl

theorem any_key_iff {κ β : Type} [DecidableEq κ] (l : List (κ × β)) (k : κ) :
    l.any (fun kv => decide (kv.1 = k)) = true ↔ k ∈ l.map Prod.fst := by
  simp only [List.any_eq_true, decide_eq_true_eq, List.mem_map]

theorem lookupD_cons_pos {κ β : Type} [DecidableEq κ] (k : κ) (v : β)
    (tl : List (κ × β)) {i : κ} (h : k = i) (d : β) :
    lookupD ((k, v) :: tl) i d = v := by
  simp [lookupD, List.find?_cons_of_pos, h]

theorem lookupD_cons_neg {κ β : Type} [DecidableEq κ] (k : κ) (v : β)
    (tl : List (κ × β)) {i : κ} (h : ¬ k = i) (d : β) :
    lookupD ((k, v) :: tl) i d = lookupD tl i d := by
  simp [lookupD, List.find?_cons_of_neg, h]

theorem lookupD_map_bump {κ β : Type} [DecidableEq κ] [AddCommMonoid β]
    (l : List (κ × β)) (k i : κ) (v : β) :
    lookupD (l.map (fun kv => if kv.1 = k then (kv.1, kv.2 + v) else kv)) i 0 =
      lookupD l i 0 + (if i = k ∧ i ∈ l.map Prod.fst then v else 0) := by
  induction l with
  | nil => simp [lookupD]
  | cons hd tl ih =>
    rw [List.map_cons]
    by_cases hhd : hd.1 = i
    · by_cases hk : hd.1 = k
      · rw [if_pos hk]
        rw [lookupD_cons_pos hd.1 (hd.2 + v) _ hhd, lookupD_cons_pos hd.1 hd.2 tl hhd]
        have hik : i = k := hhd.symm.trans hk
        have : i = k ∧ i ∈ hd.1 :: tl.map Prod.fst := ⟨hik, by simp [hhd]⟩
        rw [List.map_cons, if_pos this]
      · rw [if_neg hk]
        rw [lookupD_cons_pos hd.1 hd.2 _ hhd, lookupD_cons_pos hd.1 hd.2 tl hhd]
        have hik : ¬ i = k := fun h => hk (hhd.trans h)
        rw [List.map_cons, if_neg (fun h => hik h.1), add_zero]
    · by_cases hk : hd.1 = k
      · rw [if_pos hk, lookupD_cons_neg hd.1 (hd.2 + v) _ hhd,
          lookupD_cons_neg hd.1 hd.2 tl hhd, ih, List.map_cons]
        by_cases hmem : i = k ∧ i ∈ tl.map Prod.fst
        · have : i = k ∧ i ∈ hd.1 :: tl.map Prod.fst := ⟨hmem.1, List.mem_cons_of_mem _ hmem.2⟩
          rw [if_pos hmem, if_pos this]
        · have : ¬ (i = k ∧ i ∈ hd.1 :: tl.map Prod.fst) := by
            rintro ⟨h1, h2⟩
            rcases List.mem_cons.mp h2 with h | h
            · exact hhd h.symm
            · exact hmem ⟨h1, h⟩
          rw [if_neg hmem, if_neg this]
      · rw [if_neg hk, lookupD_cons_neg hd.1 hd.2 _ hhd,
          lookupD_cons_neg hd.1 hd.2 tl hhd, ih, List.map_cons]
        by_cases hmem : i = k ∧ i ∈ tl.map Prod.fst
        · have : i = k ∧ i ∈ hd.1 :: tl.map Prod.fst := ⟨hmem.1, List.mem_cons_of_mem _ hmem.2⟩
          rw [if_pos hmem, if_pos this]
        · have : ¬ (i = k ∧ i ∈ hd.1 :: tl.map Prod.fst) := by
            rintro ⟨h1, h2⟩
            rcases List.mem_cons.mp h2 with h | h
            · exact hhd h.symm
            · exact hmem ⟨h1, h⟩
          rw [if_neg hmem, if_neg this]

theorem lookupD_append_single {κ β : Type} [DecidableEq κ] [AddCommMonoid β]
    (l : List (κ × β)) (k i : κ) (v : β) :
    lookupD (l ++ [(k, v)]) i 0 =
      lookupD l i 0 + (if i = k ∧ i ∉ l.map Prod.fst then v else 0) := by
  induction l with
  | nil =>
    rw [List.nil_append]
    by_cases hik : i = k
    · rw [lookupD_cons_pos k v [] hik.symm, lookupD_nil]
      simp [hik]
    · rw [lookupD_cons_neg k v [] (fun h => hik h.symm), lookupD_nil]
      simp [hik]
  | cons hd tl ih =>
    rw [List.cons_append]
    by_cases hhd : hd.1 = i
    · rw [lookupD_cons_pos hd.1 hd.2 _ hhd, lookupD_cons_pos hd.1 hd.2 tl hhd]
      have : ¬ (i = k ∧ i ∉ (hd :: tl).map Prod.fst) := by
        rintro ⟨_, h2⟩
        exact h2 (by simp [hhd])
      rw [if_neg this, add_zero]
    · rw [lookupD_cons_neg hd.1 hd.2 _ hhd, lookupD_cons_neg hd.1 hd.2 tl hhd, ih]
      by_cases hmem : i = k ∧ i ∉ tl.map Prod.fst
      · have : i = k ∧ i ∉ (hd :: tl).map Prod.fst := by
          refine ⟨hmem.1, fun h => ?_⟩
          rw [List.map_cons] at h
          rcases List.mem_cons.mp h with h | h
          · exact hhd h.symm
          · exact hmem.2 h
        rw [if_pos hmem, if_pos this]
      · have : ¬ (i = k ∧ i ∉ (hd :: tl).map Prod.fst) := by
          rintro ⟨h1, h2⟩
          exact hmem ⟨h1, fun h => h2 (by simp [h])⟩
        rw [if_neg hmem, if_neg this]

theorem lookupD_addTo {κ β : Type} [DecidableEq κ] [AddCommMonoid β]
    (l : List (κ × β)) (k i : κ) (v : β) :
    lookupD (addTo l k v) i 0 = lookupD l i 0 + (if i = k then v else 0) := by
  unfold addTo
  by_cases hk : l.any (fun kv => decide (kv.1 = k)) = true
  · rw [if_pos hk, lookupD_map_bump]
    by_cases hik : i = k
    · have hmem : i ∈ l.map Prod.fst := hik ▸ (any_key_iff l k).mp hk
      rw [if_pos ⟨hik, hmem⟩, if_pos hik]
    · rw [if_neg (fun h => hik h.1), if_neg hik]
  · rw [if_neg hk, lookupD_append_single]
    by_cases hik : i = k
    · have hmem : i ∉ l.map Prod.fst := fun h => hk ((any_key_iff l k).mpr (hik ▸ h))
      rw [if_pos ⟨hik, hmem⟩, if_pos hik]
    · rw [if_neg (fun h => hik h.1), if_neg hik]

theorem lookupD_foldl_addTo {κ β γ : Type} [DecidableEq κ] [AddCommMonoid β]
    (Q : γ → Prop) [DecidablePred Q] (key : γ → κ) (val : γ → β)
    (xs : List γ) (acc : List (κ × β)) (i : κ) :
    lookupD (xs.foldl (fun a x => if Q x then a else addTo a (key x) (val x)) acc) i 0 =
      lookupD acc i 0 + (xs.map (fun x => if ¬ Q x ∧ i = key x then val x else 0)).sum := by
  induction xs generalizing acc with
  | nil => simp
  | cons hd tl ih =>
    rw [List.foldl_cons, List.map_cons, List.sum_cons, ih]
    by_cases hq : Q hd
    · rw [if_pos hq, if_neg (fun h => h.1 hq), zero_add]
    · rw [if_neg hq, lookupD_addTo, add_assoc]
      have : (if i = key hd then val hd else 0) = (if ¬ Q hd ∧ i = key hd then val hd else 0) := by
        simp [hq]
      rw [this]

theorem lookupD_foldl_foldl_addTo {κ β γ δ : Type} [DecidableEq κ] [AddCommMonoid β]
    (Q : γ → Prop) [DecidablePred Q] (key : γ → κ) (val : δ → γ → β)
    (items : δ → List γ) (ns : List δ) (acc : List (κ × β)) (i : κ) :
    lookupD (ns.foldl (fun a n => (items n).foldl
        (fun a2 x => if Q x then a2 else addTo a2 (key x) (val n x)) a) acc) i 0 =
      lookupD acc i 0 +
        (ns.map (fun n => ((items n).map
          (fun x => if ¬ Q x ∧ i = key x then val n x else 0)).sum)).sum := by
  induction ns generalizing acc with
  | nil => simp
  | cons hd tl ih =>
    rw [List.foldl_cons, ih, lookupD_foldl_addTo, List.map_cons, List.sum_cons, add_assoc]

theorem mem_keys_addTo {κ β : Type} [DecidableEq κ] [Add β]
    {l : List (κ × β)} {k i : κ} {v : β}
    (h : i ∈ (addTo l k v).map Prod.fst) : i ∈ l.map Prod.fst ∨ i = k := by
  unfold addTo at h
  by_cases hk : l.any (fun kv => decide (kv.1 = k)) = true
  · rw [if_pos hk] at h
    left
    rw [List.map_map] at h
    rcases List.mem_map.mp h with ⟨kv, hkv, hval⟩
    rcases List.mem_map.mp (List.mem_map_of_mem Prod.fst hkv) with _
    have : (Prod.fst ∘ fun kv : κ × β => if kv.1 = k then (kv.1, kv.2 + v) else kv) kv = kv.1 := by
      by_cases hc : kv.1 = k
      · simp [Function.comp, hc]
      · simp [Function.comp, hc]
    rw [this] at hval
    exact hval ▸ List.mem_map_of_mem Prod.fst hkv
  · rw [if_neg hk, List.map_append] at h
    rcases List.mem_append.mp h with h | h
    · exact Or.inl h
    · simp only [List.map_cons, List.map_nil, List.mem_singleton] at h
      exact Or.inr h

theorem mem_keys_foldl_addTo {κ β γ : Type} [DecidableEq κ] [Add β]
    (Q : γ → Prop) [DecidablePred Q] (key : γ → κ) (val : γ → β)
    (xs : List γ) (acc : List (κ × β)) (i : κ)
    (h : i ∈ ((xs.foldl (fun a x => if Q x then a else addTo a (key x) (val x)) acc).map
      Prod.fst)) :
    i ∈ acc.map Prod.fst ∨ ∃ x ∈ xs, ¬ Q x ∧ i = key x := by
  induction xs generalizing acc with
  | nil => exact Or.inl h
  | cons hd tl ih =>
    rw [List.foldl_cons] at h
    rcases ih _ h with h2 | h2
    · by_cases hq : Q hd
      · rw [if_pos hq] at h2
        exact Or.inl h2
      · rw [if_neg hq] at h2
        rcases mem_keys_addTo h2 with h3 | h3
        · exact Or.inl h3
        · exact Or.inr ⟨hd, List.mem_cons_self hd tl, hq, h3⟩
    · rcases h2 with ⟨x, hx, hq, hkey⟩
      exact Or.inr ⟨x, List.mem_cons_of_mem hd hx, hq, hkey⟩

theorem mem_keys_foldl_foldl_addTo {κ β γ δ : Type} [DecidableEq κ] [Add β]
    (Q : γ → Prop) [DecidablePred Q] (key : γ → κ) (val : δ → γ → β)
    (items : δ → List γ) (ns : List δ) (i : κ)
    (h : i ∈ ((ns.foldl (fun a n => (items n).foldl
        (fun a2 x => if Q x then a2 else addTo a2 (key x) (val n x)) a) []).map Prod.fst)) :
    ∃ n ∈ ns, ∃ x ∈ items n, ¬ Q x ∧ i = key x := by
  induction ns using List.reverseRecOn with
  | nil => simp at h
  | append_singleton tl hd ih =>
    rw [List.foldl_append, List.foldl_cons, List.foldl_nil] at h
    rcases mem_keys_foldl_addTo _ _ _ _ _ _ h with h2 | h2
    · rcases ih h2 with ⟨n, hn, hx⟩
      exact ⟨n, List.mem_append_left _ hn, hx⟩
    · rcases h2 with ⟨x, hx, hq, hkey⟩
      exact ⟨hd, List.mem_append_right _ (List.mem_singleton.mpr rfl), x, hx, hq, hkey⟩

theorem keys_setTo_preserve {κ β : Type} [DecidableEq κ]
    (l : List (κ × β)) (k : κ) (v : β) :
    ((setTo l k v).map Prod.fst = l.map Prod.fst ∧ k ∈ l.map Prod.fst) ∨
      ((setTo l k v).map Prod.fst = l.map Prod.fst ++ [k] ∧ k ∉ l.map Prod.fst) := by
  unfold setTo
  by_cases hk : l.any (fun kv => decide (kv.1 = k)) = true
  · left
    refine ⟨?_, (any_key_iff l k).mp hk⟩
    rw [if_pos hk, List.map_map]
    apply List.map_congr_left
    intro kv _
    by_cases hc : kv.1 = k
    · simp [Function.comp, hc]
    · simp [Function.comp, hc]
  · right
    refine ⟨?_, fun h => hk ((any_key_iff l k).mpr h)⟩
    rw [if_neg hk, List.map_append]
    rfl

theorem nodup_keys_setTo {κ β : Type} [DecidableEq κ]
    {l : List (κ × β)} (k : κ) (v : β) (h : (l.map Prod.fst).Nodup) :
    ((setTo l k v).map Prod.fst).Nodup := by
  rcases keys_setTo_preserve l k v with ⟨heq, _⟩ | ⟨heq, hmem⟩
  · rw [heq]; exact h
  · rw [heq]
    exact List.Nodup.append h (List.nodup_singleton k)
      (List.disjoint_singleton.mpr hmem)

theorem sum_ite_eq_lookupD {κ β M : Type} [DecidableEq κ] [Zero β] [AddCommMonoid M]
    (l : List (κ × β)) (i : κ) (hn : (l.map Prod.fst).Nodup)
    (f : β → M) (hf : f 0 = 0) :
    (l.map (fun kv => if i = kv.1 then f kv.2 else 0)).sum = f (lookupD l i 0) := by
  induction l with
  | nil => simp [lookupD, hf]
  | cons hd tl ih =>
    rw [List.map_cons, List.sum_cons]
    rw [List.map_cons] at hn
    rcases List.nodup_cons.mp hn with ⟨hhd, htl⟩
    by_cases hi : i = hd.1
    · rw [if_pos hi, lookupD_cons_pos hd.1 hd.2 tl hi.symm]
      have hzero : (tl.map (fun kv => if i = kv.1 then f kv.2 else 0)).sum = 0 := by
        apply List.sum_eq_zero
        intro x hx
        rcases List.mem_map.mp hx with ⟨kv, hkv, hval⟩
        have : ¬ i = kv.1 := fun h => hhd (by
          rw [hi] at h
          exact h ▸ List.mem_map_of_mem Prod.fst hkv)
        rw [if_neg this] at hval
        exact hval.symm
      rw [hzero, add_zero]
    · rw [if_neg hi, lookupD_cons_neg hd.1 hd.2 tl (fun h => hi h.symm), zero_add]
      exact ih htl

theorem foldl_max_mem (vs : List ℚ) : ∀ v : ℚ, vs.foldl max v ∈ v :: vs := by
  induction vs with
  | nil => intro v; exact List.mem_singleton.mpr rfl
  | cons w ws ih =>
    intro v
    rw [List.foldl_cons]
    rcases List.mem_cons.mp (ih (max v w)) with h | h
    · rcases max_choice v w with hc | hc
      · rw [h, hc]; exact List.mem_cons_self v (w :: ws)
      · rw [h, hc]; exact List.mem_cons_of_mem v (List.mem_cons_self w ws)
    · exact List.mem_cons_of_mem v (List.mem_cons_of_mem w h)

theorem init_le_foldl_max (vs : List ℚ) : ∀ v : ℚ, v ≤ vs.foldl max v := by
  induction vs with
  | nil => intro v; exact le_refl v
  | cons w ws ih =>
    intro v
    rw [List.foldl_cons]
    exact le_trans (le_max_left v w) (ih (max v w))

theorem le_foldl_max (vs : List ℚ) : ∀ (v x : ℚ), x ∈ v :: vs → x ≤ vs.foldl max v := by
  induction vs with
  | nil =>
    intro v x hx
    rw [List.mem_singleton.mp hx]
    exact le_refl v
  | cons w ws ih =>
    intro v x hx
    rw [List.foldl_cons]
    rcases List.mem_cons.mp hx with h | h
    · rw [h]; exact le_trans (le_max_left v w) (init_le_foldl_max ws (max v w))
    · rcases List.mem_cons.mp h with h2 | h2
      · rw [h2]; exact le_trans (le_max_right v w) (init_le_foldl_max ws (max v w))
      · exact ih (max v w) x (List.mem_cons_of_mem _ h2)

theorem listMax_mem {l : List ℚ} (h : l ≠ []) : listMax l ∈ l := by
  cases l with
  | nil => exact absurd rfl h
  | cons v vs => exact foldl_max_mem vs v

theorem le_listMax {l : List ℚ} {x : ℚ} (h : x ∈ l) : x ≤ listMax l := by
  cases l with
  | nil => exact absurd h (List.not_mem_nil x)
  | cons v vs => exact le_foldl_max vs v x h

theorem firstOccurrencesAux_eq_self {α : Type} [DecidableEq α] :
    ∀ (l seen : List α), l.Nodup → (∀ x ∈ l, x ∉ seen) →
      firstOccurrencesAux l seen = l := by
  intro l
  induction l with
  | nil => intro seen _ _; rfl
  | cons x xs ih =>
    intro seen h hseen
    rcases List.nodup_cons.mp h with ⟨hx, hxs⟩
    unfold firstOccurrencesAux
    rw [if_neg (hseen x (List.mem_cons_self x xs))]
    congr 1
    apply ih (x :: seen) hxs
    intro y hy hmem
    rcases List.mem_cons.mp hmem with h2 | h2
    · exact hx (h2 ▸ hy)
    · exact hseen y (List.mem_cons_of_mem x hy) h2

theorem firstOccurrences_eq_self {α : Type} [DecidableEq α] {l : List α}
    (h : l.Nodup) : firstOccurrences l = l :=
  firstOccurrencesAux_eq_self l [] h (fun x _ => List.not_mem_nil x)

theorem sum_map_lookupD {κ β : Type} [DecidableEq κ] [AddCommMonoid β]
    (f : β → β) :
    ∀ (A : List (κ × β)), (A.map Prod.fst).Nodup →
      ((A.map Prod.fst).map (fun k => f (lookupD A k 0))).sum =
        (A.map (fun kv => f kv.2)).sum := by
  intro A
  induction A with
  | nil => intro _; rfl
  | cons hd tl ih =>
    intro h2
    rw [List.map_cons] at h2
    have h := h2
    rcases List.nodup_cons.mp h with ⟨hhd, htl⟩
    rw [List.map_cons, List.map_cons, List.map_cons, List.sum_cons, List.sum_cons,
      lookupD_cons_pos hd.1 hd.2 tl rfl]
    have hcongr : (tl.map Prod.fst).map (fun k => f (lookupD (hd :: tl) k 0)) =
        (tl.map Prod.fst).map (fun k => f (lookupD tl k 0)) := by
      apply List.map_congr_left
      intro k hk
      rw [lookupD_cons_neg hd.1 hd.2 tl (fun he => hhd (he ▸ hk)) 0]
    rw [hcongr, ih htl]

/-! ### Claim C10 -/

/-- C10: for every category and tag list, if the concatenation of title,
body text and tags contains no non-whitespace token, `classify_content`
returns "mixed" — even for tech or business categories that would otherwise
earn the 0.4 category bonus, and whatever the regex pattern outcomes —
because both score functions return 0.0 on word count zero before the
category bonus is applied. -/
theorem claim_C10 (title content category : String) (tags : List String)
    (tpat : TechPatterns) (bpat : BusinessPatterns)
    (h : pySplit (classifier_full_text title content tags) = []) :
    classify_content title content category tags tpat bpat = "mixed" := by
  have hlen : (pySplit (classifier_full_text title content tags)).length = 0 := by
    rw [h]
    rfl
  have ht : _calculate_tech_score (classifier_full_text title content tags)
      category tpat = 0 := by
    unfold _calculate_tech_score
    rw [if_pos hlen]
  have hb : _calculate_business_score (classifier_full_text title content tags)
      category bpat = 0 := by
    unfold _calculate_business_score
    rw [if_pos hlen]
  unfold classify_content
  dsimp only
  rw [ht, hb]
  norm_num

/-- C10 witness: the empty text in the tech category `Tutorial`, with every
regex pattern reported as matching, still classifies as "mixed". -/
theorem claim_C10_witness :
    classify_content "" "" "Tutorial" []
      (TechPatterns.mk true true true) (BusinessPatterns.mk true true true) = "mixed" :=
  claim_C10 "" "" "Tutorial" [] (TechPatterns.mk true true true)
    (BusinessPatterns.mk true true true) (by decide)

/-! ### Claim C8 -/

/-- C8 (amended): for two content items with the same category, the same
NON-EMPTY tag set and the same author, the content similarity score is at
least 0.8 = 0.4 + 0.3 + 0.1, regardless of body text. (With an empty shared
tag set the `if tags1 and tags2` guard skips the 0.3 term and the bound
fails; see the counterexample.) -/
theorem claim_C8 (content1 content2 : Content)
    (hcat : content1.category = content2.category)
    (htags : content1.tags.toFinset = content2.tags.toFinset)
    (hne : content1.tags.toFinset.Nonempty)
    (hauthor : content1.author = content2.author) :
    4/5 ≤ calculate_content_similarity content1 content2 := by
  unfold calculate_content_similarity
  dsimp only
  rw [if_pos hcat, if_pos hauthor, if_pos ⟨hne, htags ▸ hne⟩, ← htags,
    Finset.inter_self, Finset.union_self]
  have hcard : (0:ℚ) < (content1.tags.toFinset.card : ℚ) := by
    exact_mod_cast Finset.card_pos.mpr hne
  have hj : (3:ℚ)/10 * (content1.tags.toFinset.card : ℚ) /
      (content1.tags.toFinset.card : ℚ) = 3/10 := by
    field_simp
    ring
  rw [hj]
  have hkw : (0:ℚ) ≤
      (if (extract_keywords content1.body 10).toFinset.Nonempty ∧
          (extract_keywords content2.body 10).toFinset.Nonempty then
        1/5 * (((extract_keywords content1.body 10).toFinset ∩
            (extract_keywords content2.body 10).toFinset).card : ℚ) /
          (((extract_keywords content1.body 10).toFinset ∪
            (extract_keywords content2.body 10).toFinset).card : ℚ)
      else 0) := by
    split
    · positivity
    · exact le_refl 0
  linarith

/-- C8 witness: two items sharing the category, the one-tag set and the
author, with different bodies, score at least 0.8. -/
theorem claim_C8_witness :
    4/5 ≤ calculate_content_similarity
      (Content.mk 1 "Blog Post" ["news"] "ann" ["alphabeta"] 10 "Published")
      (Content.mk 2 "Blog Post" ["news"] "ann" ["gammadelta"] 11 "Published") :=
  claim_C8 (Content.mk 1 "Blog Post" ["news"] "ann" ["alphabeta"] 10 "Published")
    (Content.mk 2 "Blog Post" ["news"] "ann" ["gammadelta"] 11 "Published")
    (by decide) (by decide) (by decide) (by decide)

/-- C8 counterexample: two items with the same category (`Blog Post`), the
same tag set (both empty) and the same author score only 0.5, below the
claimed 0.8: the tag term is skipped for empty tag sets and the keyword
Jaccard term is 0 for disjoint bodies. -/
theorem claim_C8_counterexample :
    calculate_content_similarity
      (Content.mk 1 "Blog Post" [] "ann" ["alphabeta"] 10 "Published")
      (Content.mk 2 "Blog Post" [] "ann" ["gammadelta"] 11 "Published") = 1/2 ∧
    ¬ ((4:ℚ)/5 ≤ 1/2) := by
  refine ⟨?_, by norm_num⟩
  unfold calculate_content_similarity
  dsimp only
  rw [if_pos rfl, if_pos rfl, if_neg (by decide), if_pos (by decide)]
  rw [show (extract_keywords ["alphabeta"] 10).toFinset ∩
      (extract_keywords ["gammadelta"] 10).toFinset = ∅ from by decide]
  rw [show ((extract_keywords ["alphabeta"] 10).toFinset ∪
      (extract_keywords ["gammadelta"] 10).toFinset).card = 2 from by decide]
  norm_num

/-! ### Claim C6 -/

theorem updateFirst_length {α : Type} (p : α → Bool) (f : α → α) (l : List α) :
    (updateFirst p f l).length = l.length := by
  induction l with
  | nil => rfl
  | cons x xs ih =>
    unfold updateFirst
    by_cases hx : p x
    · rw [if_pos hx]
      rfl
    · rw [if_neg (by simpa using hx)]
      simpa using ih

/-- C6 (amended): app.py's `track_user_interaction` only ever appends one
new interaction row. The engine's `track_recommendation_feedback` appends a
new row (with the mapped score, which is negative for `dismissed`) only when
no interaction with the same user, content and mapped type exists; otherwise
it mutates the store in place, keeping its length, instead of appending. -/
theorem claim_C6 :
    (∀ (store : List Interaction) (u c : ℕ) (t : String) (s : ℚ) (now : ℕ),
      track_user_interaction store u c t s now = store ++ [Interaction.mk u c t s now]) ∧
    (∀ (store : List Interaction) (u c : ℕ) (action : String) (now : ℕ)
      (ty : String) (sc : ℚ), action_mapping action = some (ty, sc) →
      (¬ store.any (fun i => decide (i.userId = u) && decide (i.contentId = c) &&
        decide (i.interactionType = ty))) →
      track_recommendation_feedback store u c action now =
        store ++ [Interaction.mk u c ty sc now]) ∧
    (∀ (store : List Interaction) (u c : ℕ) (action : String) (now : ℕ),
      (track_recommendation_feedback store u c action now).length = store.length ∨
      (track_recommendation_feedback store u c action now).length = store.length + 1) := by
  refine ⟨fun store u c t s now => rfl, ?_, ?_⟩
  · intro store u c action now ty sc hmap hnone
    unfold track_recommendation_feedback
    rw [hmap]
    dsimp only
    rw [if_neg hnone]
  · intro store u c action now
    unfold track_recommendation_feedback
    cases hmap : action_mapping action with
    | none => exact Or.inl rfl
    | some ts =>
      dsimp only
      by_cases hany : store.any (fun i => decide (i.userId = u) &&
        decide (i.contentId = c) && decide (i.interactionType = ts.1))
      · rw [if_pos hany]
        exact Or.inl (updateFirst_length _ _ _)
      · rw [if_neg hany]
        exact Or.inr (by simp)

/-- C6 counterexample: feedback `clicked` on an existing (user 7, content 3,
type `view`, score 1, timestamp 5) row does not append — it rewrites that
row's score to 2 and its timestamp to 10 — and feedback `dismissed` appends
a row with the negative score -0.5, refuting both the immutability and the
non-negative-score parts of the claim. -/
theorem claim_C6_counterexample :
    track_recommendation_feedback [Interaction.mk 7 3 "view" 1 5] 7 3 "clicked" 10 =
      [Interaction.mk 7 3 "view" 2 10] ∧
    track_recommendation_feedback [] 7 3 "dismissed" 10 =
      [Interaction.mk 7 3 "view" (-1/2) 10] ∧
    ¬ ((2:ℚ) = 1) ∧ ¬ ((0:ℚ) ≤ -1/2) := by
  refine ⟨?_, ?_, by norm_num, by norm_num⟩
  · unfold track_recommendation_feedback
    rw [show action_mapping "clicked" = some ("view", (1:ℚ)) from rfl]
    dsimp only
    rw [if_pos (by decide)]
    unfold updateFirst
    rw [if_pos (by decide)]
    norm_num
  · unfold track_recommendation_feedback
    rw [show action_mapping "dismissed" = some ("view", (-1/2 : ℚ)) from rfl]
    dsimp only
    rw [if_neg (by decide)]
    rfl

/-! ### Claim C9 -/

theorem prod_calculate_user_similarity_eq_zero (u1 u2 : List (ℕ × ℚ)) :
    prod_calculate_user_similarity u1 u2 = 0 := by
  unfold prod_calculate_user_similarity
  dsimp only
  split <;> rfl

theorem prod_user_similarities_nil (M : List (ℕ × List (ℕ × ℚ)))
    (tp : List (ℕ × ℚ)) (t : ℕ) :
    M.filterMap (fun uv =>
      if uv.1 ≠ t then
        if 1/10 < prod_calculate_user_similarity tp uv.2 then
          some (uv.1, prod_calculate_user_similarity tp uv.2)
        else none
      else none) = [] := by
  apply List.filterMap_eq_nil_iff.mpr
  intro uv _
  by_cases h : uv.1 ≠ t
  · rw [if_pos h, prod_calculate_user_similarity_eq_zero, if_neg (by norm_num)]
  · rw [if_neg h]

theorem prod_top_similar_users_nil (matrix : List (ℕ × List (ℕ × ℚ))) (t : ℕ) :
    prod_top_similar_users matrix t = [] := by
  unfold prod_top_similar_users
  dsimp only
  rw [prod_user_similarities_nil]
  rfl

/-- C9: for every database state, every initial matrix state, every target
user and every limit, the product engine's user-based collaborative
filtering returns exactly the popularity fallback's result:
`calculate_user_similarity` evaluates to 0.0 on every pair of users (the
second magnitude applies `math.sqrt` to a generator expression, whose
`TypeError` the except handler converts to 0.0, and pairs with no common
product return 0.0 directly), so no neighbour ever exceeds the 0.1
similarity threshold and the fallback branch is always taken. -/
theorem claim_C9 (db : ProdDB) (matrix0 : List (ℕ × List (ℕ × ℚ)))
    (target_user_id : ℕ) (limit : ℕ) :
    get_user_based_recommendations db matrix0 target_user_id limit =
      get_popular_products db limit := by
  unfold get_user_based_recommendations
  dsimp only
  generalize (if matrix0 = [] then build_user_product_matrix db else matrix0) = M
  by_cases hmem : target_user_id ∉ M.map Prod.fst
  · rw [if_pos hmem]
  · rw [if_neg hmem]
    rw [prod_top_similar_users_nil, if_pos rfl]

/-! ### Claim C5 -/

theorem take_ne_nil_of_ne_nil {α : Type} {l : List α} {n : ℕ}
    (hl : l ≠ []) (hn : 0 < n) : l.take n ≠ [] := by
  cases l with
  | nil => exact absurd rfl hl
  | cons x xs =>
    cases n with
    | zero => exact absurd hn (by norm_num)
    | succ m => simp

/-- C5 (amended): the product popularity fallback `get_popular_products`
returns a non-empty list whenever at least one product is active and the
limit is positive, and returns the empty list when no product is active; by
contrast the content trending fallbacks can return an empty list on a
non-empty catalog (see the counterexample), so non-emptiness holds only for
the product side. -/
theorem claim_C5 :
    (∀ (db : ProdDB) (limit : ℕ), 0 < limit → (∃ p ∈ db.products, p.isActive) →
      get_popular_products db limit ≠ []) ∧
    (∀ (db : ProdDB) (limit : ℕ), (∀ p ∈ db.products, ¬ p.isActive = true) →
      get_popular_products db limit = []) := by
  constructor
  · rintro db limit hlim ⟨p, hp, hact⟩
    unfold get_popular_products
    dsimp only
    have hfilter : db.products.filter (fun q => q.isActive) ≠ [] :=
      List.ne_nil_of_mem (List.mem_filter.mpr ⟨hp, hact⟩)
    have hsorted : sortDescBy2 (fun q => total_sold db q.id) (fun q => q.createdAt)
        (db.products.filter (fun q => q.isActive)) ≠ [] := by
      intro hnil
      have hperm := sortDescBy2_perm (fun q => total_sold db q.id) (fun q => q.createdAt)
        (db.products.filter (fun q => q.isActive))
      rw [hnil] at hperm
      exact hfilter hperm.symm.eq_nil
    have hrows := take_ne_nil_of_ne_nil hsorted hlim
    obtain ⟨r, hr⟩ := List.exists_mem_of_ne_nil _ hrows
    have hrmem : r ∈ db.products :=
      List.mem_of_mem_filter
        ((sortDescBy2_perm _ _ _).subset ((List.take_sublist _ _).subset hr))
    have hfind : (db.products.find? (fun q => decide (q.id = r.id))).isSome :=
      List.find?_isSome.mpr ⟨r, hrmem, by simp⟩
    obtain ⟨q, hq⟩ := Option.isSome_iff_exists.mp hfind
    exact List.ne_nil_of_mem (List.mem_filterMap.mpr ⟨r, hr,
      show _ = some (PRec.mk q (1/2) "Popular product") by rw [hq]; rfl⟩)
  · intro db limit hinact
    unfold get_popular_products
    dsimp only
    have hfilter : db.products.filter (fun q => q.isActive) = [] :=
      List.filter_eq_nil_iff.mpr (fun p hp => by simpa using hinact p hp)
    rw [hfilter]
    simp [sortDescBy2]

/-- C5 counterexample: a catalog holding one published item with no tags
makes `get_trending_content` return the empty list — the catalog is
non-empty and the item published, yet no item carries any of the (zero)
popular tags — refuting the claim that the trending fallback is non-empty
whenever the catalog has a published item. -/
theorem claim_C5_counterexample :
    get_trending_content
      (ContentDB.mk [Content.mk 1 "Blog Post" [] "ann" [] 100 "Published"] []) 5 = [] ∧
    (ContentDB.mk [Content.mk 1 "Blog Post" [] "ann" [] 100 "Published"] []).contents ≠ [] ∧
    (Content.mk 1 "Blog Post" [] "ann" [] 100 "Published").status = "Published" := by
  refine ⟨by decide, by decide, rfl⟩

/-- C2 counterexample: user 5 already bought product 1 (it is the only entry
of their user-product matrix row), yet the outward entry point
`get_user_based_recommendations` — which here degrades to the popularity
fallback — returns exactly product 1 to user 5: the fallback does not
exclude already-interacted items. -/
theorem claim_C2_counterexample :
    (get_user_based_recommendations exampleProdDB [] 5 5).map (fun r => r.product.id) =
      [1] ∧
    1 ∈ (lookupD (build_user_product_matrix exampleProdDB) 5 []).map Prod.fst := by
  exact ⟨by decide, by decide⟩

theorem app_cf_scores_keys_excluded (db : ContentDB) (now : ℕ) (target : ℕ)
    (cid : ℕ) (h : cid ∈ (app_cf_scores db now target).map Prod.fst) :
    cid ∉ (lookupD (build_user_item_matrix db now).1 target []).map Prod.fst := by
  unfold app_cf_scores at h
  dsimp only at h
  rcases mem_keys_foldl_foldl_addTo
    (fun ir : ℕ × ℚ =>
      ir.1 ∈ (lookupD (build_user_item_matrix db now).1 target []).map Prod.fst)
    Prod.fst
    (fun us ir => (us.2 / ((app_cf_user_similarities db now target).map Prod.snd).sum) *
      (ir.2 : ℝ))
    (fun us => lookupD (build_user_item_matrix db now).1 us.1 [])
    (app_cf_user_similarities db now target) cid h with ⟨n, _, x, _, hq, hkey⟩
  rw [hkey]
  exact hq

theorem engine_cf_scores_keys_excluded (db : ContentDB) (user_id : ℕ)
    (cid : ℕ) (h : cid ∈ (engine_cf_scores db user_id).map Prod.fst) :
    cid ∉ engine_target_interactions db user_id := by
  unfold engine_cf_scores at h
  dsimp only at h
  rcases mem_keys_foldl_foldl_addTo
    (fun i : Interaction => i.contentId ∈ engine_target_interactions db user_id)
    (fun i : Interaction => i.contentId)
    (fun us (i : Interaction) => us.2 * (i.score : ℝ))
    (fun us : ℕ × ℝ => db.interactions.filter (fun i => decide (i.userId = us.1)))
    (engine_cf_similar_users db user_id) cid h with ⟨n, _, x, _, hq, hkey⟩
  rw [hkey]
  exact hq

/-- C2 (amended): the scored outputs of the personalised strategies exclude
the target's already-interacted items — app.py's collaborative filtering
never returns a content the target has in their (30-day) user-item matrix
row, the engine's collaborative-filtering candidate scores carry no content
the target interacted with, and the preference-based strategy only scores
published items the user never interacted with — but the trending/popularity
fallbacks are user-agnostic and can return already-interacted items (see the
counterexample), so the exclusion invariant does not extend to them. -/
theorem claim_C2 :
    (∀ (db : ContentDB) (now target limit : ℕ),
      ∀ r ∈ get_collaborative_filtering_recommendations db now target limit,
        r.content.id ∉ (lookupD (build_user_item_matrix db now).1 target []).map Prod.fst) ∧
    (∀ (db : ContentDB) (user_id : ℕ),
      ∀ kv ∈ engine_cf_scores db user_id,
        kv.1 ∉ engine_target_interactions db user_id) ∧
    (∀ (db : ContentDB) (now user_id : ℕ) (prefs : UserPreferenceProfile) (num : ℕ),
      ∀ c ∈ get_preference_based_recommendations db now user_id prefs num,
        c.id ∉ (db.interactions.filter
          (fun i => decide (i.userId = user_id))).map (fun i => i.contentId)) := by
  refine ⟨?_, ?_, ?_⟩
  · intro db now target limit r hr
    unfold get_collaborative_filtering_recommendations at hr
    dsimp only at hr
    by_cases h1 : target ∉ ((build_user_item_matrix db now).1).map Prod.fst
    · rw [if_pos h1] at hr
      exact absurd hr (List.not_mem_nil r)
    · rw [if_neg h1] at hr
      by_cases h2 : ((app_cf_user_similarities db now target).map Prod.snd).sum = (0 : ℝ)
      · rw [if_pos h2] at hr
        exact absurd hr (List.not_mem_nil r)
      · rw [if_neg h2] at hr
        rcases List.mem_map.mp hr with ⟨c, hc, hrc⟩
        rcases List.mem_filter.mp hc with ⟨_, hcond⟩
        have hid : c.id ∈ ((sortDescBy Prod.snd (app_cf_scores db now target)).take
            limit).map Prod.fst := by
          have := of_decide_eq_true (Bool.and_elim_left hcond)
          exact this
        have hkeys : c.id ∈ (app_cf_scores db now target).map Prod.fst := by
          rcases List.mem_map.mp hid with ⟨kv, hkv, hkvid⟩
          exact hkvid ▸ List.mem_map_of_mem Prod.fst
            ((sortDescBy_perm _ _).subset ((List.take_sublist _ _).subset hkv))
        have hexcl := app_cf_scores_keys_excluded db now target c.id hkeys
        rw [← hrc]
        exact hexcl
  · intro db user_id kv hkv
    exact engine_cf_scores_keys_excluded db user_id kv.1
      (List.mem_map_of_mem Prod.fst hkv)
  · intro db now user_id prefs num c hc
    unfold get_preference_based_recommendations at hc
    dsimp only at hc
    rcases List.mem_map.mp hc with ⟨pair, hpair, hpc⟩
    have hpool : pair.1 ∈ db.contents.filter (fun cc => decide (cc.status = "Published") &&
        !(decide (cc.id ∈ (db.interactions.filter
          (fun i => decide (i.userId = user_id))).map (fun i => i.contentId)))) := by
      have hmem := (sortDescBy_perm Prod.snd _).subset ((List.take_sublist _ _).subset hpair)
      rcases List.mem_map.mp hmem with ⟨cc, hcc, hmk⟩
      have : pair.1 = cc := by rw [← hmk]
      exact this ▸ hcc
    rcases List.mem_filter.mp hpool with ⟨_, hcond⟩
    have := Bool.and_elim_right hcond
    rw [← hpc]
    simpa using this

/-! ### Claim C1 -/

theorem mem_of_mem_firstOccurrencesAux {α : Type} [DecidableEq α] :
    ∀ (l seen : List α) (x : α), x ∈ firstOccurrencesAux l seen → x ∈ l := by
  intro l
  induction l with
  | nil => intro seen x hx; exact absurd hx (List.not_mem_nil x)
  | cons y ys ih =>
    intro seen x hx
    unfold firstOccurrencesAux at hx
    by_cases hy : y ∈ seen
    · rw [if_pos hy] at hx
      exact List.mem_cons_of_mem y (ih _ x hx)
    · rw [if_neg hy] at hx
      rcases List.mem_cons.mp hx with h | h
      · exact h ▸ List.mem_cons_self y ys
      · exact List.mem_cons_of_mem y (ih _ x h)

theorem mem_of_mem_firstOccurrences {α : Type} [DecidableEq α] {l : List α} {x : α}
    (h : x ∈ firstOccurrences l) : x ∈ l :=
  mem_of_mem_firstOccurrencesAux l [] x h

/-- C1 (amended): app.py's `calculate_user_similarity` does satisfy the
claim — on duplicate-free keys, the self-similarity of a vector with
positive squared norm is exactly 1; two vectors sharing no key have
similarity 0; and when some key is shared, the value equals the dot product
over the common keys divided by the product of the two FULL magnitudes (a
quotient that is 0 whenever either magnitude is 0). The product engine's
`calculate_user_similarity`, by contrast, returns 0.0 on every input — its
`math.sqrt` over a generator expression raises a `TypeError` swallowed by
the except handler — so the claim fails for it (see the counterexample). -/
theorem claim_C1 :
    (∀ A : List (ℕ × ℚ), (A.map Prod.fst).Nodup →
      0 < (A.map (fun kv => kv.2 ^ 2)).sum →
      calculate_user_similarity A A = 1) ∧
    (∀ A B : List (ℕ × ℚ), (∀ k ∈ A.map Prod.fst, k ∉ B.map Prod.fst) →
      calculate_user_similarity A B = 0) ∧
    (∀ A B : List (ℕ × ℚ),
      (firstOccurrences (A.map Prod.fst)).filter
        (fun k => decide (k ∈ B.map Prod.fst)) ≠ [] →
      calculate_user_similarity A B =
        ((((firstOccurrences (A.map Prod.fst)).filter
            (fun k => decide (k ∈ B.map Prod.fst))).map
              (fun k => lookupD A k 0 * lookupD B k 0)).sum : ℚ) /
          (Real.sqrt (((A.map (fun kv => kv.2 ^ 2)).sum : ℚ) : ℝ) *
           Real.sqrt (((B.map (fun kv => kv.2 ^ 2)).sum : ℚ) : ℝ))) ∧
    (∀ A B : List (ℕ × ℚ), prod_calculate_user_similarity A B = 0) := by
  have hformula : ∀ A B : List (ℕ × ℚ),
      (firstOccurrences (A.map Prod.fst)).filter
        (fun k => decide (k ∈ B.map Prod.fst)) ≠ [] →
      calculate_user_similarity A B =
        ((((firstOccurrences (A.map Prod.fst)).filter
            (fun k => decide (k ∈ B.map Prod.fst))).map
              (fun k => lookupD A k 0 * lookupD B k 0)).sum : ℚ) /
          (Real.sqrt (((A.map (fun kv => kv.2 ^ 2)).sum : ℚ) : ℝ) *
           Real.sqrt (((B.map (fun kv => kv.2 ^ 2)).sum : ℚ) : ℝ)) := by
    intro A B hcommon
    unfold calculate_user_similarity
    dsimp only
    rw [if_neg hcommon]
    have hs1 : (0:ℚ) ≤ (A.map (fun kv => kv.2 ^ 2)).sum :=
      List.sum_nonneg (by
        intro x hx
        rcases List.mem_map.mp hx with ⟨kv, _, hval⟩
        exact hval ▸ sq_nonneg kv.2)
    have hs2 : (0:ℚ) ≤ (B.map (fun kv => kv.2 ^ 2)).sum :=
      List.sum_nonneg (by
        intro x hx
        rcases List.mem_map.mp hx with ⟨kv, _, hval⟩
        exact hval ▸ sq_nonneg kv.2)
    have hsplit : Real.sqrt ((((A.map (fun kv => kv.2 ^ 2)).sum *
        (B.map (fun kv => kv.2 ^ 2)).sum : ℚ)) : ℝ) =
        Real.sqrt (((A.map (fun kv => kv.2 ^ 2)).sum : ℚ) : ℝ) *
        Real.sqrt (((B.map (fun kv => kv.2 ^ 2)).sum : ℚ) : ℝ) := by
      rw [Rat.cast_mul]
      exact Real.sqrt_mul (by exact_mod_cast hs1) _
    rw [hsplit]
    by_cases hzero : Real.sqrt (((A.map (fun kv => kv.2 ^ 2)).sum : ℚ) : ℝ) *
        Real.sqrt (((B.map (fun kv => kv.2 ^ 2)).sum : ℚ) : ℝ) = 0
    · rw [if_pos hzero, hzero, div_zero]
    · rw [if_neg hzero]
  refine ⟨?_, ?_, hformula, fun A B => prod_calculate_user_similarity_eq_zero A B⟩
  · intro A hnodup hpos
    have hkeys : firstOccurrences (A.map Prod.fst) = A.map Prod.fst :=
      firstOccurrences_eq_self hnodup
    have hfilter : (firstOccurrences (A.map Prod.fst)).filter
        (fun k => decide (k ∈ A.map Prod.fst)) = A.map Prod.fst := by
      rw [hkeys]
      exact List.filter_eq_self.mpr (fun a ha => decide_eq_true ha)
    have hne : A ≠ [] := by
      intro hA
      rw [hA] at hpos
      exact absurd hpos (by norm_num)
    have hcne : (firstOccurrences (A.map Prod.fst)).filter
        (fun k => decide (k ∈ A.map Prod.fst)) ≠ [] := by
      rw [hfilter]
      cases A with
      | nil => exact absurd rfl hne
      | cons x xs => simp
    rw [hformula A A hcne, hfilter]
    have hdot : ((A.map Prod.fst).map (fun k => lookupD A k 0 * lookupD A k 0)).sum =
        (A.map (fun kv => kv.2 ^ 2)).sum := by
      have h := sum_map_lookupD (fun v : ℚ => v * v) A hnodup
      rw [h]
      congr 1
      apply List.map_congr_left
      intro kv _
      rw [sq]
    rw [hdot]
    have hposR : (0:ℝ) < (((A.map (fun kv => kv.2 ^ 2)).sum : ℚ) : ℝ) := by
      exact_mod_cast hpos
    rw [Real.mul_self_sqrt (le_of_lt hposR)]
    exact div_self (ne_of_gt hposR)
  · intro A B hdisj
    unfold calculate_user_similarity
    dsimp only
    have hcommon : (firstOccurrences (A.map Prod.fst)).filter
        (fun k => decide (k ∈ B.map Prod.fst)) = [] :=
      List.filter_eq_nil_iff.mpr (fun k hk => by
        simpa using hdisj k (mem_of_mem_firstOccurrences hk))
    rw [if_pos hcommon]

/-- C1 counterexample: the vector with key 1 and weight 1 is non-zero (its
squared magnitude is positive), so the claim demands self-similarity 1, yet
the product engine's `calculate_user_similarity` returns 0 on it. -/
theorem claim_C1_counterexample :
    prod_calculate_user_similarity [((1:ℕ), (1:ℚ))] [((1:ℕ), (1:ℚ))] = 0 ∧
    (0:ℚ) < (([((1:ℕ), (1:ℚ))].map (fun kv => kv.2 ^ 2)).sum) ∧ (0:ℚ) ≠ 1 :=
  ⟨prod_calculate_user_similarity_eq_zero _ _, by norm_num, by norm_num⟩

/-! ### Claim C4 -/

/-- C4 (amended): all three hybrid recommenders truncate to at most `limit`
entries, and app.py's hybrid is additionally ordered by descending hybrid
score; but neither the product hybrid (which appends category-based and
popularity entries after the boosted user-based ones without re-sorting, see
the counterexample) nor the engine's three-way hybrid (whose final catalog
fetch returns its top-`n` selection in catalog order, not score order)
guarantees descending order of the returned list. -/
theorem claim_C4 :
    (∀ (db : ContentDB) (now user_id content_id limit : ℕ),
      DescendingBy (fun h => h.hybrid_score)
        (get_hybrid_recommendations db now user_id content_id limit) ∧
      (get_hybrid_recommendations db now user_id content_id limit).length ≤ limit) ∧
    (∀ (db : ProdDB) (matrix : List (ℕ × List (ℕ × ℚ))) (user_id limit : ℕ),
      (prod_get_hybrid_recommendations db matrix user_id limit).length ≤ limit) ∧
    (∀ (content_based collaborative preference_based catalog : List Content) (n : ℕ),
      (catalog.map (fun c => c.id)).Nodup →
      (engine_hybrid_combine content_based collaborative preference_based catalog n).length
        ≤ n) := by
  refine ⟨?_, ?_, ?_⟩
  · intro db now user_id content_id limit
    unfold get_hybrid_recommendations
    dsimp only
    exact ⟨DescendingBy_sortDescBy_take _ _ _, List.length_take_le _ _⟩
  · intro db matrix user_id limit
    unfold prod_get_hybrid_recommendations
    dsimp only
    exact List.length_take_le _ _
  · intro content_based collaborative preference_based catalog n hnodup
    unfold engine_hybrid_combine
    dsimp only
    have hlen : ∀ ids : List ℕ, ids.length ≤ n →
        (catalog.filter (fun c => decide (c.id ∈ ids))).length ≤ n := by
      intro ids hids
      set filtered := catalog.filter (fun c => decide (c.id ∈ ids)) with hfil
      have hsub : (filtered.map (fun c => c.id)).Sublist (catalog.map (fun c => c.id)) :=
        (List.filter_sublist catalog).map _
      have hnd : (filtered.map (fun c => c.id)).Nodup := hnodup.sublist hsub
      have hsubset : (filtered.map (fun c => c.id)).toFinset ⊆ ids.toFinset := by
        intro x hx
        rw [List.mem_toFinset] at hx ⊢
        rcases List.mem_map.mp hx with ⟨c, hc, hcx⟩
        have := List.mem_filter.mp hc
        exact hcx ▸ of_decide_eq_true this.2
      calc filtered.length = (filtered.map (fun c => c.id)).length := by
            rw [List.length_map]
        _ = (filtered.map (fun c => c.id)).toFinset.card :=
            (List.toFinset_card_of_nodup hnd).symm
        _ ≤ ids.toFinset.card := Finset.card_le_card hsubset
        _ ≤ ids.length := ids.toFinset_card_le
        _ ≤ n := hids
    apply hlen
    simp only [List.length_map]
    exact List.length_take_le _ _

theorem hybridProdDB_products : hybridProdDB.products =
    [Product.mk 1 "W1" "A" 10 true, Product.mk 2 "W2" "A" 9 true,
     Product.mk 3 "W3" "A" 8 true, Product.mk 4 "W4" "A" 7 true] := rfl

theorem hybridProdDB_orders : hybridProdDB.orders = [Order.mk 1 5 "completed"] := rfl

theorem hybridProdDB_orderItems : hybridProdDB.orderItems = [OrderItem.mk 1 1 1] := rfl

theorem hybridProdDB_cartItems : hybridProdDB.cartItems = [] := rfl

theorem hybrid_ts1 : total_sold hybridProdDB 1 = 1 := by
  norm_num [total_sold, hybridProdDB_orderItems, hybridProdDB_orders,
    List.find?_cons, List.filterMap_cons]

theorem hybrid_ts2 : total_sold hybridProdDB 2 = 0 := by
  norm_num [total_sold, hybridProdDB_orderItems, hybridProdDB_orders,
    List.find?_cons, List.filterMap_cons]

theorem hybrid_ts3 : total_sold hybridProdDB 3 = 0 := by
  norm_num [total_sold, hybridProdDB_orderItems, hybridProdDB_orders,
    List.find?_cons, List.filterMap_cons]

theorem hybrid_ts4 : total_sold hybridProdDB 4 = 0 := by
  norm_num [total_sold, hybridProdDB_orderItems, hybridProdDB_orders,
    List.find?_cons, List.filterMap_cons]

theorem hybrid_popular3 : get_popular_products hybridProdDB 3 =
    [PRec.mk (Product.mk 1 "W1" "A" 10 true) (1/2) "Popular product",
     PRec.mk (Product.mk 2 "W2" "A" 9 true) (1/2) "Popular product",
     PRec.mk (Product.mk 3 "W3" "A" 8 true) (1/2) "Popular product"] := by
  unfold get_popular_products
  dsimp only
  norm_num [hybridProdDB_products, sortDescBy2, List.insertionSort, List.orderedInsert,
    hybrid_ts1, hybrid_ts2, hybrid_ts3, hybrid_ts4, List.find?_cons, List.filterMap_cons,
    List.filter_cons]

theorem hybrid_popular1 : get_popular_products hybridProdDB 1 =
    [PRec.mk (Product.mk 1 "W1" "A" 10 true) (1/2) "Popular product"] := by
  unfold get_popular_products
  dsimp only
  norm_num [hybridProdDB_products, sortDescBy2, List.insertionSort, List.orderedInsert,
    hybrid_ts1, hybrid_ts2, hybrid_ts3, hybrid_ts4, List.find?_cons, List.filterMap_cons,
    List.filter_cons]

theorem hybrid_matrix : build_user_product_matrix hybridProdDB =
    [(5, [(1, (1:ℚ))])] := by
  unfold build_user_product_matrix
  norm_num [hybridProdDB_orderItems, hybridProdDB_orders, hybridProdDB_cartItems,
    List.find?_cons, setTo, addTo, lookupD]

theorem hybrid_user_based : get_user_based_recommendations hybridProdDB [] 5 3 =
    [PRec.mk (Product.mk 1 "W1" "A" 10 true) (1/2) "Popular product",
     PRec.mk (Product.mk 2 "W2" "A" 9 true) (1/2) "Popular product",
     PRec.mk (Product.mk 3 "W3" "A" 8 true) (1/2) "Popular product"] := by
  unfold get_user_based_recommendations
  dsimp only
  rw [if_pos rfl, hybrid_matrix, if_neg (by norm_num), prod_top_similar_users_nil,
    if_pos rfl, hybrid_popular3]

theorem hybrid_category : get_category_based_recommendations hybridProdDB 5 3 =
    [PRec.mk (Product.mk 2 "W2" "A" 9 true) (4/5) "Based on your interest in A",
     PRec.mk (Product.mk 3 "W3" "A" 8 true) (4/5) "Based on your interest in A",
     PRec.mk (Product.mk 4 "W4" "A" 7 true) (4/5) "Based on your interest in A"] := by
  unfold get_category_based_recommendations
  dsimp only
  norm_num [hybridProdDB_products, hybridProdDB_orders, hybridProdDB_orderItems,
    List.find?_cons, List.filterMap_cons, List.filter_cons, addTo, sortDescBy,
    List.insertionSort, List.orderedInsert]
  rfl

theorem hybrid_value : prod_get_hybrid_recommendations hybridProdDB [] 5 5 =
    [PRec.mk (Product.mk 1 "W1" "A" 10 true) (3/5) "Popular product",
     PRec.mk (Product.mk 2 "W2" "A" 9 true) (3/5) "Popular product",
     PRec.mk (Product.mk 3 "W3" "A" 8 true) (3/5) "Popular product",
     PRec.mk (Product.mk 4 "W4" "A" 7 true) (4/5) "Based on your interest in A"] := by
  unfold prod_get_hybrid_recommendations
  dsimp only
  rw [show (5:ℕ)/2 + 1 = 3 from rfl, hybrid_user_based, hybrid_category]
  norm_num [hybrid_popular1]

/-- C4 counterexample: on `hybridProdDB` the product hybrid recommender for
user 5 with limit 5 returns scores 0.6, 0.6, 0.6, 0.8 — the boosted
popularity entries precede the higher-scored category entry — so the
returned list is not ordered by descending combined score. -/
theorem claim_C4_counterexample :
    ¬ DescendingBy (fun r : PRec => r.score)
      (prod_get_hybrid_recommendations hybridProdDB [] 5 5) := by
  rw [hybrid_value]
  simp only [DescendingBy, List.chain'_cons, List.chain'_singleton]
  intro h
  have h2 := h.2.2.1
  norm_num at h2

/-! ### Claim C3 -/

theorem lookupD_setTo_self {κ β : Type} [DecidableEq κ]
    (l : List (κ × β)) (k : κ) (v : β) (d : β) :
    lookupD (setTo l k v) k d = v := by
  unfold setTo
  by_cases hk : l.any (fun kv => decide (kv.1 = k)) = true
  · rw [if_pos hk]
    induction l with
    | nil => simp at hk
    | cons hd tl ih =>
      by_cases hhd : hd.1 = k
      · rw [List.map_cons, if_pos hhd]
        exact lookupD_cons_pos hd.1 v _ hhd d
      · rw [List.map_cons, if_neg hhd]
        rw [lookupD_cons_neg hd.1 hd.2 _ hhd d]
        apply ih
        simp only [List.any_cons, Bool.or_eq_true, decide_eq_true_eq] at hk
        rcases hk with h | h
        · exact absurd h hhd
        · simpa using h
  · rw [if_neg hk]
    induction l with
    | nil => exact lookupD_cons_pos k v [] rfl d
    | cons hd tl ih =>
      simp only [List.any_cons, Bool.or_eq_true, decide_eq_true_eq, not_or] at hk
      rw [List.cons_append, lookupD_cons_neg hd.1 hd.2 _ hk.1 d]
      exact ih (by simpa using hk.2)

theorem lookupD_map_setbump {κ β : Type} [DecidableEq κ]
    (l : List (κ × β)) (k i : κ) (v : β) (d : β) (h : ¬ i = k) :
    lookupD (l.map (fun kv => if kv.1 = k then (kv.1, v) else kv)) i d =
      lookupD l i d := by
  induction l with
  | nil => rfl
  | cons hd tl ih =>
    rw [List.map_cons]
    by_cases hhd : hd.1 = i
    · have hne : ¬ hd.1 = k := fun he => h (hhd.symm.trans he)
      rw [if_neg hne, lookupD_cons_pos hd.1 hd.2 _ hhd d,
        lookupD_cons_pos hd.1 hd.2 tl hhd d]
    · by_cases hne : hd.1 = k
      · rw [if_pos hne, lookupD_cons_neg hd.1 v _ hhd d,
          lookupD_cons_neg hd.1 hd.2 tl hhd d, ih]
      · rw [if_neg hne, lookupD_cons_neg hd.1 hd.2 _ hhd d,
          lookupD_cons_neg hd.1 hd.2 tl hhd d, ih]

theorem lookupD_append_single_ne {κ β : Type} [DecidableEq κ]
    (l : List (κ × β)) (k i : κ) (v : β) (d : β) (h : ¬ i = k) :
    lookupD (l ++ [(k, v)]) i d = lookupD l i d := by
  induction l with
  | nil =>
    rw [List.nil_append, lookupD_cons_neg k v [] (fun he => h he.symm) d]
  | cons hd tl ih =>
    by_cases hhd : hd.1 = i
    · rw [List.cons_append, lookupD_cons_pos hd.1 hd.2 _ hhd d,
        lookupD_cons_pos hd.1 hd.2 tl hhd d]
    · rw [List.cons_append, lookupD_cons_neg hd.1 hd.2 _ hhd d,
        lookupD_cons_neg hd.1 hd.2 tl hhd d, ih]

theorem lookupD_setTo_ne {κ β : Type} [DecidableEq κ]
    (l : List (κ × β)) (k i : κ) (v : β) (d : β) (h : ¬ i = k) :
    lookupD (setTo l k v) i d = lookupD l i d := by
  unfold setTo
  by_cases hk : l.any (fun kv => decide (kv.1 = k)) = true
  · rw [if_pos hk]
    exact lookupD_map_setbump l k i v d h
  · rw [if_neg hk]
    exact lookupD_append_single_ne l k i v d h

theorem nodup_keys_addTo {κ β : Type} [DecidableEq κ]
    {l : List (κ × β)} [Add β] (k : κ) (v : β) (h : (l.map Prod.fst).Nodup) :
    ((addTo l k v).map Prod.fst).Nodup := by
  unfold addTo
  by_cases hk : l.any (fun kv => decide (kv.1 = k)) = true
  · rw [if_pos hk]
    have hkeys : (l.map (fun kv => if kv.1 = k then (kv.1, kv.2 + v) else kv)).map
        Prod.fst = l.map Prod.fst := by
      rw [List.map_map]
      apply List.map_congr_left
      intro kv _
      by_cases hc : kv.1 = k
      · simp [Function.comp, hc]
      · simp [Function.comp, hc]
    rw [hkeys]
    exact h
  · rw [if_neg hk, List.map_append]
    refine List.Nodup.append h (List.nodup_singleton k) ?_
    simp only [List.map_cons, List.map_nil]
    exact List.disjoint_singleton.mpr (fun hmem => hk ((any_key_iff l k).mpr hmem))

theorem foldl_preserves {α γ : Type} (P : α → Prop) (step : α → γ → α)
    (xs : List γ) (a0 : α) (h0 : P a0) (hstep : ∀ a x, P a → P (step a x)) :
    P (xs.foldl step a0) := by
  induction xs generalizing a0 with
  | nil => exact h0
  | cons x xs ih => exact ih (step a0 x) (hstep a0 x h0)

/-- Every row of the app.py user-item matrix has duplicate-free item keys
(rows are built by per-item assignment). -/
theorem build_user_item_matrix_row_nodup (db : ContentDB) (now u : ℕ) :
    ((lookupD (build_user_item_matrix db now).1 u []).map Prod.fst).Nodup := by
  unfold build_user_item_matrix
  dsimp only
  refine foldl_preserves
    (fun m : List (ℕ × List (ℕ × ℚ)) => ∀ w, ((lookupD m w []).map Prod.fst).Nodup)
    _ _ [] (fun w => by simp [lookupD]) ?_ u
  intro m i hm w
  by_cases hw : w = i.userId
  · rw [hw, lookupD_setTo_self]
    exact nodup_keys_setTo i.contentId i.score (hm i.userId)
  · rw [lookupD_setTo_ne _ _ _ _ _ hw]
    exact hm w

/-- Every row of the product engine's user-product matrix has
duplicate-free product keys. -/
theorem build_user_product_matrix_row_nodup (db : ProdDB) (u : ℕ) :
    ((lookupD (build_user_product_matrix db) u []).map Prod.fst).Nodup := by
  unfold build_user_product_matrix
  dsimp only
  refine foldl_preserves
    (fun m : List (ℕ × List (ℕ × ℚ)) => ∀ w, ((lookupD m w []).map Prod.fst).Nodup)
    _ _ _ ?_ ?_ u
  · refine foldl_preserves
      (fun m : List (ℕ × List (ℕ × ℚ)) => ∀ w, ((lookupD m w []).map Prod.fst).Nodup)
      _ _ [] (fun w => by simp [lookupD]) ?_
    intro m oi hm w
    cases db.orders.find? (fun o => decide (o.id = oi.orderId)) with
    | none => exact hm w
    | some o =>
      dsimp only
      by_cases hst : o.status = "completed"
      · rw [if_pos hst]
        by_cases hw : w = o.userId
        · rw [hw, lookupD_setTo_self]
          exact nodup_keys_addTo oi.productId oi.quantity (hm o.userId)
        · rw [lookupD_setTo_ne _ _ _ _ _ hw]
          exact hm w
      · rw [if_neg hst]
        exact hm w
  · intro m ci hm w
    by_cases hw : w = ci.userId
    · rw [hw, lookupD_setTo_self]
      exact nodup_keys_addTo ci.productId (ci.quantity * (3/10)) (hm ci.userId)
    · rw [lookupD_setTo_ne _ _ _ _ _ hw]
      exact hm w

theorem sum_map_filter_ite {γ : Type} (l : List γ) (p : γ → Bool) (q : γ → Bool)
    (f : γ → ℝ) :
    ((l.filter p).map (fun x => if q x then f x else 0)).sum =
      ((l.filter (fun x => p x && q x)).map f).sum := by
  induction l with
  | nil => rfl
  | cons hd tl ih =>
    rw [List.filter_cons, List.filter_cons]
    by_cases hp : p hd
    · rw [if_pos hp]
      by_cases hq : q hd
      · rw [if_pos (by rw [hp, hq]; rfl), List.map_cons, List.map_cons, List.sum_cons,
          List.sum_cons, ih, if_pos hq]
      · rw [if_neg (by rw [hp, Bool.eq_false_iff.mpr hq]; simp), List.map_cons,
          List.sum_cons, ih, if_neg hq, zero_add]
    · rw [if_neg (by simpa using hp), if_neg (by rw [Bool.eq_false_iff.mpr hp]; simp), ih]

theorem cast_sum_scores (l : List Interaction) :
    (l.map (fun i => (i.score : ℝ))).sum = (((l.map (fun i => i.score)).sum : ℚ) : ℝ) := by
  induction l with
  | nil => simp
  | cons hd tl ih => simp [ih]

theorem engine_cf_score_eq (db : ContentDB) (user item : ℕ)
    (hexcl : item ∉ engine_target_interactions db user)
    (htot : ((engine_cf_similar_users db user).map Prod.snd).sum ≠ 0) :
    lookupD (engine_cf_scores db user) item 0 =
      ((engine_cf_similar_users db user).map Prod.snd).sum *
        cf_weighted_average_score (engine_cf_similar_users db user)
          (fun v i => (engine_matrix_entry db v i : ℝ)) item := by
  unfold engine_cf_scores
  dsimp only
  rw [lookupD_foldl_foldl_addTo
    (fun i : Interaction => i.contentId ∈ engine_target_interactions db user)
    (fun i : Interaction => i.contentId)
    (fun (us : ℕ × ℝ) (i : Interaction) => us.2 * (i.score : ℝ))
    (fun us : ℕ × ℝ => db.interactions.filter (fun i => decide (i.userId = us.1)))
    (engine_cf_similar_users db user) [] item]
  rw [lookupD_nil, zero_add]
  have hinner : ∀ us : ℕ × ℝ,
      ((db.interactions.filter (fun i => decide (i.userId = us.1))).map
        (fun x => if ¬ (x.contentId ∈ engine_target_interactions db user) ∧
            item = x.contentId then us.2 * (x.score : ℝ) else 0)).sum =
      us.2 * (engine_matrix_entry db us.1 item : ℝ) := by
    intro us
    have hcongr : ((db.interactions.filter (fun i => decide (i.userId = us.1))).map
        (fun x => if ¬ (x.contentId ∈ engine_target_interactions db user) ∧
            item = x.contentId then us.2 * (x.score : ℝ) else 0)) =
        ((db.interactions.filter (fun i => decide (i.userId = us.1))).map
          (fun x => if decide (x.contentId = item) = true then us.2 * (x.score : ℝ)
            else 0)) := by
      apply List.map_congr_left
      intro x _
      by_cases hx : item = x.contentId
      · rw [if_pos ⟨fun hmem => hexcl (hx ▸ hmem), hx⟩,
          if_pos (decide_eq_true hx.symm)]
      · rw [if_neg (fun hc => hx hc.2), if_neg (by simpa using fun hc => hx hc.symm)]
    rw [hcongr, sum_map_filter_ite db.interactions
      (fun i => decide (i.userId = us.1)) (fun x => decide (x.contentId = item))
      (fun x => us.2 * (x.score : ℝ))]
    have hfilter : (db.interactions.filter
        (fun i => decide (i.userId = us.1) && decide (i.contentId = item))) =
        (db.interactions.filter
          (fun i => decide (i.userId = us.1) && decide (i.contentId = item))) := rfl
    rw [show ((db.interactions.filter
        (fun i => decide (i.userId = us.1) && decide (i.contentId = item))).map
          (fun x => us.2 * (x.score : ℝ))).sum =
        us.2 * ((db.interactions.filter
          (fun i => decide (i.userId = us.1) && decide (i.contentId = item))).map
            (fun x => (x.score : ℝ))).sum from List.sum_map_mul_left _ _ _]
    rw [cast_sum_scores]
    rfl
  have houter : ((engine_cf_similar_users db user).map (fun n =>
      ((db.interactions.filter (fun i => decide (i.userId = n.1))).map
        (fun x => if ¬ (x.contentId ∈ engine_target_interactions db user) ∧
            item = x.contentId then n.2 * (x.score : ℝ) else 0)).sum)).sum =
      ((engine_cf_similar_users db user).map (fun n =>
        n.2 * (engine_matrix_entry db n.1 item : ℝ))).sum := by
    apply congrArg
    apply List.map_congr_left
    intro us _
    exact hinner us
  rw [houter]
  unfold cf_weighted_average_score
  rw [show ((engine_cf_similar_users db user).map Prod.snd).sum *
      ((engine_cf_similar_users db user).map (fun us =>
        us.2 / ((engine_cf_similar_users db user).map Prod.snd).sum *
          (engine_matrix_entry db us.1 item : ℝ))).sum =
      ((engine_cf_similar_users db user).map (fun us =>
        ((engine_cf_similar_users db user).map Prod.snd).sum *
          (us.2 / ((engine_cf_similar_users db user).map Prod.snd).sum *
            (engine_matrix_entry db us.1 item : ℝ)))).sum from
    (List.sum_map_mul_left _ _ _).symm]
  apply congrArg
  apply List.map_congr_left
  intro us _
  rw [← mul_assoc, mul_comm ((engine_cf_similar_users db user).map Prod.snd).sum,
    div_mul_cancel₀ _ htot]

theorem app_cf_score_eq (db : ContentDB) (now target item : ℕ)
    (hexcl : item ∉ (lookupD (build_user_item_matrix db now).1 target []).map Prod.fst) :
    lookupD (app_cf_scores db now target) item 0 =
      cf_weighted_average_score (app_cf_user_similarities db now target)
        (fun u i =>
          ((lookupD (lookupD (build_user_item_matrix db now).1 u []) i 0 : ℚ) : ℝ))
        item := by
  unfold app_cf_scores
  dsimp only
  rw [lookupD_foldl_foldl_addTo
    (fun ir : ℕ × ℚ =>
      ir.1 ∈ (lookupD (build_user_item_matrix db now).1 target []).map Prod.fst)
    Prod.fst
    (fun (us : ℕ × ℝ) (ir : ℕ × ℚ) =>
      us.2 / ((app_cf_user_similarities db now target).map Prod.snd).sum * (ir.2 : ℝ))
    (fun us : ℕ × ℝ => lookupD (build_user_item_matrix db now).1 us.1 [])
    (app_cf_user_similarities db now target) [] item]
  rw [lookupD_nil, zero_add]
  unfold cf_weighted_average_score
  apply congrArg
  apply List.map_congr_left
  intro us _
  have hcongr : ((lookupD (build_user_item_matrix db now).1 us.1 []).map
      (fun x => if ¬ (x.1 ∈ (lookupD (build_user_item_matrix db now).1 target []).map
          Prod.fst) ∧ item = x.1 then
        us.2 / ((app_cf_user_similarities db now target).map Prod.snd).sum * (x.2 : ℝ)
      else 0)) =
      ((lookupD (build_user_item_matrix db now).1 us.1 []).map
        (fun x => if item = x.1 then
          us.2 / ((app_cf_user_similarities db now target).map Prod.snd).sum * (x.2 : ℝ)
        else 0)) := by
    apply List.map_congr_left
    intro x _
    by_cases hx : item = x.1
    · rw [if_pos ⟨fun hmem => hexcl (hx ▸ hmem), hx⟩, if_pos hx]
    · rw [if_neg (fun hc => hx hc.2), if_neg hx]
  rw [hcongr, sum_ite_eq_lookupD (lookupD (build_user_item_matrix db now).1 us.1 [])
    item (build_user_item_matrix_row_nodup db now us.1)
    (fun q : ℚ =>
      us.2 / ((app_cf_user_similarities db now target).map Prod.snd).sum * (q : ℝ))
    (by norm_num)]

theorem prod_user_based_score_eq (matrix : List (ℕ × List (ℕ × ℚ)))
    (target item : ℕ)
    (hnodup : ∀ u, ((lookupD matrix u []).map Prod.fst).Nodup)
    (hexcl : item ∉ (lookupD matrix target []).map Prod.fst) :
    lookupD (prod_user_based_scores matrix target) item 0 =
      cf_weighted_average_score (prod_top_similar_users matrix target)
        (fun u i => lookupD (lookupD matrix u []) i 0) item := by
  unfold prod_user_based_scores
  dsimp only
  rw [lookupD_foldl_foldl_addTo
    (fun pr : ℕ × ℚ => pr.1 ∈ (lookupD matrix target []).map Prod.fst)
    Prod.fst
    (fun (us : ℕ × ℚ) (pr : ℕ × ℚ) =>
      pr.2 * (us.2 / ((prod_top_similar_users matrix target).map Prod.snd).sum))
    (fun us : ℕ × ℚ => lookupD matrix us.1 [])
    (prod_top_similar_users matrix target) [] item]
  rw [lookupD_nil, zero_add]
  unfold cf_weighted_average_score
  apply congrArg
  apply List.map_congr_left
  intro us _
  have hcongr : ((lookupD matrix us.1 []).map
      (fun x => if ¬ (x.1 ∈ (lookupD matrix target []).map Prod.fst) ∧ item = x.1 then
        x.2 * (us.2 / ((prod_top_similar_users matrix target).map Prod.snd).sum)
      else 0)) =
      ((lookupD matrix us.1 []).map
        (fun x => if item = x.1 then
          x.2 * (us.2 / ((prod_top_similar_users matrix target).map Prod.snd).sum)
        else 0)) := by
    apply List.map_congr_left
    intro x _
    by_cases hx : item = x.1
    · rw [if_pos ⟨fun hmem => hexcl (hx ▸ hmem), hx⟩, if_pos hx]
    · rw [if_neg (fun hc => hx hc.2), if_neg hx]
  rw [hcongr, sum_ite_eq_lookupD (lookupD matrix us.1 []) item (hnodup us.1)
    (fun q : ℚ =>
      q * (us.2 / ((prod_top_similar_users matrix target).map Prod.snd).sum))
    (by norm_num)]
  exact mul_comm _ _

/-- C3 (amended): app.py's collaborative filtering and the product engine's
user-based collaborative filtering score each candidate item as the proper
similarity-weighted average over the selected neighbours
(`weight = similarity / sum of selected similarities`); the content engine's
collaborative filtering instead adds raw `similarity * rating` with no
division, so its candidate score equals the sum of the selected similarities
times the weighted average — an order-equivalent raw sum, not the weighted
average the claim states (see the counterexample). -/
theorem claim_C3 :
    (∀ (db : ContentDB) (now target item : ℕ),
      item ∉ (lookupD (build_user_item_matrix db now).1 target []).map Prod.fst →
      lookupD (app_cf_scores db now target) item 0 =
        cf_weighted_average_score (app_cf_user_similarities db now target)
          (fun u i =>
            ((lookupD (lookupD (build_user_item_matrix db now).1 u []) i 0 : ℚ) : ℝ))
          item) ∧
    (∀ (matrix : List (ℕ × List (ℕ × ℚ))) (target item : ℕ),
      (∀ u, ((lookupD matrix u []).map Prod.fst).Nodup) →
      item ∉ (lookupD matrix target []).map Prod.fst →
      lookupD (prod_user_based_scores matrix target) item 0 =
        cf_weighted_average_score (prod_top_similar_users matrix target)
          (fun u i => lookupD (lookupD matrix u []) i 0) item) ∧
    (∀ (db : ContentDB) (user item : ℕ),
      item ∉ engine_target_interactions db user →
      ((engine_cf_similar_users db user).map Prod.snd).sum ≠ 0 →
      lookupD (engine_cf_scores db user) item 0 =
        ((engine_cf_similar_users db user).map Prod.snd).sum *
          cf_weighted_average_score (engine_cf_similar_users db user)
            (fun v i => (engine_matrix_entry db v i : ℝ)) item) :=
  ⟨app_cf_score_eq, prod_user_based_score_eq, engine_cf_score_eq⟩

theorem cfdb_users : engine_cf_users cfContentDB = [10, 20] := by decide

theorem cfdb_contents : engine_cf_contents cfContentDB = [1, 2] := by decide

theorem cfdb_target : engine_target_interactions cfContentDB 10 = [1] := by decide

theorem cfdb_entry_10_1 : engine_matrix_entry cfContentDB 10 1 = 1 := by
  norm_num [engine_matrix_entry, cfContentDB, List.filter_cons]

theorem cfdb_entry_10_2 : engine_matrix_entry cfContentDB 10 2 = 0 := by
  norm_num [engine_matrix_entry, cfContentDB, List.filter_cons]

theorem cfdb_entry_20_1 : engine_matrix_entry cfContentDB 20 1 = 3 := by
  norm_num [engine_matrix_entry, cfContentDB, List.filter_cons]

theorem cfdb_entry_20_2 : engine_matrix_entry cfContentDB 20 2 = 4 := by
  norm_num [engine_matrix_entry, cfContentDB, List.filter_cons]

theorem cfdb_ss_10 : engine_row_norm_sq cfContentDB 10 = 1 := by
  unfold engine_row_norm_sq
  rw [cfdb_contents]
  norm_num [cfdb_entry_10_1, cfdb_entry_10_2]

theorem cfdb_ss_20 : engine_row_norm_sq cfContentDB 20 = 25 := by
  unfold engine_row_norm_sq
  rw [cfdb_contents]
  norm_num [cfdb_entry_20_1, cfdb_entry_20_2]

theorem cfdb_dot : engine_row_dot cfContentDB 10 20 = 3 := by
  unfold engine_row_dot
  rw [cfdb_contents]
  norm_num [cfdb_entry_10_1, cfdb_entry_10_2, cfdb_entry_20_1, cfdb_entry_20_2]

theorem cfdb_cos : engine_cosine_similarity cfContentDB 10 20 = 3/5 := by
  unfold engine_cosine_similarity
  rw [cfdb_ss_10, cfdb_ss_20, cfdb_dot, if_neg (by norm_num)]
  rw [show ((1:ℚ) : ℝ) = 1 by norm_num, Real.sqrt_one]
  rw [show ((25:ℚ) : ℝ) = (5:ℝ)^2 by norm_num, Real.sqrt_sq (by norm_num : (0:ℝ) ≤ 5)]
  norm_num

theorem cfdb_sims : engine_cf_similar_users cfContentDB 10 = [(20, (3/5 : ℝ))] := by
  unfold engine_cf_similar_users
  dsimp only
  rw [cfdb_users]
  norm_num [List.filterMap_cons, cfdb_cos, sortDescBy, List.insertionSort,
    List.orderedInsert]

theorem cfdb_interactions : cfContentDB.interactions =
    [Interaction.mk 10 1 "view" 1 50, Interaction.mk 20 1 "view" 3 50,
     Interaction.mk 20 2 "view" 4 50] := rfl

theorem cfdb_raw_score : lookupD (engine_cf_scores cfContentDB 10) 2 0 = 12/5 := by
  unfold engine_cf_scores
  dsimp only
  rw [cfdb_sims, cfdb_target]
  norm_num [cfdb_interactions, List.filter_cons, addTo, lookupD]

/-- C3 counterexample: with neighbour 20 at similarity 0.6, the content
engine scores item 2 as `0.6 * 4 = 2.4` (raw similarity times rating), while
the claimed similarity-weighted average — with the single neighbour's weight
`0.6 / 0.6 = 1` — is 4. -/
theorem claim_C3_counterexample :
    lookupD (engine_cf_scores cfContentDB 10) 2 0 = 12/5 ∧
    cf_weighted_average_score (engine_cf_similar_users cfContentDB 10)
      (fun v i => (engine_matrix_entry cfContentDB v i : ℝ)) 2 = 4 ∧
    ((12:ℝ)/5) ≠ 4 := by
  refine ⟨cfdb_raw_score, ?_, by norm_num⟩
  rw [cfdb_sims]
  unfold cf_weighted_average_score
  norm_num [cfdb_entry_20_2]

theorem addTo_values_nonneg {κ : Type} [DecidableEq κ]
    {l : List (κ × ℚ)} {k : κ} {v : ℚ}
    (hl : ∀ kv ∈ l, 0 ≤ kv.2) (hv : 0 ≤ v) :
    ∀ kv ∈ addTo l k v, 0 ≤ kv.2 := by
  intro kv hkv
  unfold addTo at hkv
  by_cases hk : l.any (fun kv => decide (kv.1 = k)) = true
  · rw [if_pos hk] at hkv
    rcases List.mem_map.mp hkv with ⟨kv0, hkv0, hval⟩
    by_cases hc : kv0.1 = k
    · rw [if_pos hc] at hval
      rw [← hval]
      exact add_nonneg (hl kv0 hkv0) hv
    · rw [if_neg hc] at hval
      exact hval ▸ hl kv0 hkv0
  · rw [if_neg hk] at hkv
    rcases List.mem_append.mp hkv with h | h
    · exact hl kv h
    · rw [List.mem_singleton.mp h]
      exact hv

theorem interaction_weight_pos (t : String) : 0 < interaction_weight t := by
  unfold interaction_weight
  repeat' split
  all_goals norm_num

theorem foldl_preserves_mem {α γ : Type} (P : α → Prop) (step : α → γ → α) :
    ∀ (xs : List γ) (a0 : α), P a0 →
      (∀ a, ∀ x ∈ xs, P a → P (step a x)) → P (xs.foldl step a0) := by
  intro xs
  induction xs with
  | nil => intro a0 h0 _; exact h0
  | cons x xs ih =>
    intro a0 h0 hstep
    exact ih (step a0 x) (hstep a0 x (List.mem_cons_self x xs) h0)
      (fun a y hy ha => hstep a y (List.mem_cons_of_mem x hy) ha)

theorem BucketOK_nil : BucketOK [] :=
  ⟨fun kv h => absurd h (List.not_mem_nil kv), fun h => absurd rfl h⟩

theorem behavior_buckets_nonneg (db : ContentDB) (now user_id : ℕ)
    (hscores : ∀ i ∈ db.interactions, 0 ≤ i.score) :
    (∀ kv ∈ (behavior_buckets db now user_id).1, 0 ≤ kv.2) ∧
    (∀ kv ∈ (behavior_buckets db now user_id).2.1, 0 ≤ kv.2) ∧
    (∀ kv ∈ (behavior_buckets db now user_id).2.2, 0 ≤ kv.2) := by
  unfold behavior_buckets
  dsimp only
  refine foldl_preserves_mem
    (fun b : List (String × ℚ) × List (String × ℚ) × List (String × ℚ) =>
      (∀ kv ∈ b.1, 0 ≤ kv.2) ∧ (∀ kv ∈ b.2.1, 0 ≤ kv.2) ∧ (∀ kv ∈ b.2.2, 0 ≤ kv.2))
    _ _ ([], [], [])
    ⟨fun kv h => absurd h (List.not_mem_nil kv),
     fun kv h => absurd h (List.not_mem_nil kv),
     fun kv h => absurd h (List.not_mem_nil kv)⟩ ?_
  intro b p hp hb
  dsimp only
  cases hfind : db.contents.find? (fun c => decide (c.id = p.2.contentId)) with
  | none => exact hb
  | some content =>
    dsimp only
    by_cases hst : content.status ≠ "Published"
    · rw [if_pos hst]
      exact hb
    · rw [if_neg hst]
      have hmem : p.2 ∈ db.interactions := by
        have h1 : p.2 ∈ (sortAscBy (fun i => i.timestamp)
            (db.interactions.filter (fun i => decide (i.userId = user_id) &&
              decide (now - 90 ≤ i.timestamp)))).enum.map Prod.snd :=
          List.mem_map_of_mem Prod.snd hp
        rw [List.enum_map_snd] at h1
        unfold sortAscBy at h1
        exact List.mem_of_mem_filter ((List.perm_insertionSort _ _).subset h1)
      have hw : 0 ≤ interaction_weight p.2.interactionType *
          (19/20 : ℚ) ^ ((db.interactions.filter (fun i =>
              decide (i.userId = user_id) &&
              decide (now - 90 ≤ i.timestamp))).length - p.1 - 1) * p.2.score := by
        refine mul_nonneg (mul_nonneg ?_ ?_) (hscores p.2 hmem)
        · exact le_of_lt (interaction_weight_pos _)
        · positivity
      exact ⟨addTo_values_nonneg hb.1 hw, addTo_values_nonneg hb.2.1 hw,
        foldl_preserves (fun acc : List (String × ℚ) => ∀ kv ∈ acc, 0 ≤ kv.2)
          _ content.tags b.2.2 hb.2.2
          (fun acc t hacc => addTo_values_nonneg hacc (mul_nonneg hw (by norm_num)))⟩

theorem normalized_bucket_ok (l : List (String × ℚ))
    (hnn : ∀ kv ∈ l, 0 ≤ kv.2)
    (hz : ¬(l ≠ [] ∧ listMax (l.map Prod.snd) = 0)) :
    BucketOK (l.map (fun kv => (kv.1, kv.2 / listMax (l.map Prod.snd)))) := by
  by_cases hl : l = []
  · subst hl
    exact BucketOK_nil
  · have hmax0 : listMax (l.map Prod.snd) ≠ 0 := fun h => hz ⟨hl, h⟩
    have hmem : listMax (l.map Prod.snd) ∈ l.map Prod.snd :=
      listMax_mem (by simpa using hl)
    have hmaxnn : 0 ≤ listMax (l.map Prod.snd) := by
      rcases List.mem_map.mp hmem with ⟨kv, hkv, hval⟩
      exact hval ▸ hnn kv hkv
    have hmaxpos : 0 < listMax (l.map Prod.snd) :=
      lt_of_le_of_ne hmaxnn (Ne.symm hmax0)
    constructor
    · intro kv hkv
      rcases List.mem_map.mp hkv with ⟨kv0, hkv0, hval⟩
      subst hval
      refine ⟨div_nonneg (hnn kv0 hkv0) hmaxnn, ?_⟩
      exact (div_le_one hmaxpos).mpr (le_listMax (List.mem_map_of_mem Prod.snd hkv0))
    · intro _
      rcases List.mem_map.mp hmem with ⟨kv, hkv, hval⟩
      refine ⟨(kv.1, kv.2 / listMax (l.map Prod.snd)),
        List.mem_map_of_mem _ hkv, ?_⟩
      show kv.2 / listMax (l.map Prod.snd) = 1
      rw [hval, div_self hmax0]

/-- Claim C7 (amended): the max-normalisation invariant of
`analyze_user_behavior` — every category, author and tag weight in [0, 1]
and each non-empty bucket attaining exactly 1 — holds for every user whose
stored interaction scores are all nonnegative. (Unrestricted, the claim
fails: `track_recommendation_feedback` can store a negative score via the
`dismissed` action, and a negative raw bucket value divided by a positive
maximum leaves [0, 1]; see the counterexample.) -/
theorem claim_C7 (db : ContentDB) (now user_id : ℕ)
    (hscores : ∀ i ∈ db.interactions, 0 ≤ i.score) :
    BucketOK (analyze_user_behavior db now user_id).categories ∧
    BucketOK (analyze_user_behavior db now user_id).authors ∧
    BucketOK (analyze_user_behavior db now user_id).tags := by
  unfold analyze_user_behavior
  dsimp only
  by_cases hempty : db.interactions.filter
      (fun i => decide (i.userId = user_id) && decide (now - 90 ≤ i.timestamp)) = []
  · rw [if_pos hempty]
    exact ⟨BucketOK_nil, BucketOK_nil, BucketOK_nil⟩
  · rw [if_neg hempty]
    have hB : behavior_buckets db now user_id =
        ((behavior_buckets db now user_id).1,
         (behavior_buckets db now user_id).2.1,
         (behavior_buckets db now user_id).2.2) := rfl
    rw [hB]
    dsimp only
    obtain ⟨h1n, h2n, h3n⟩ := behavior_buckets_nonneg db now user_id hscores
    by_cases hz : ((behavior_buckets db now user_id).1 ≠ [] ∧
        listMax (((behavior_buckets db now user_id).1).map Prod.snd) = 0) ∨
        ((behavior_buckets db now user_id).2.1 ≠ [] ∧
        listMax (((behavior_buckets db now user_id).2.1).map Prod.snd) = 0) ∨
        ((behavior_buckets db now user_id).2.2 ≠ [] ∧
        listMax (((behavior_buckets db now user_id).2.2).map Prod.snd) = 0)
    · rw [if_pos hz]
      exact ⟨BucketOK_nil, BucketOK_nil, BucketOK_nil⟩
    · rw [if_neg hz]
      exact ⟨normalized_bucket_ok _ h1n (fun h => hz (Or.inl h)),
        normalized_bucket_ok _ h2n (fun h => hz (Or.inr (Or.inl h))),
        normalized_bucket_ok _ h3n (fun h => hz (Or.inr (Or.inr h)))⟩

theorem claim_C7_witness :
    BucketOK (analyze_user_behavior c7DB 100 7).categories ∧
    BucketOK (analyze_user_behavior c7DB 100 7).authors ∧
    BucketOK (analyze_user_behavior c7DB 100 7).tags :=
  claim_C7 c7DB 100 7 (by
    intro i hi
    rw [show c7DB.interactions = [Interaction.mk 7 1 "view" 1 100] from rfl,
      List.mem_singleton] at hi
    rw [hi]
    exact zero_le_one)

theorem claim_C7_counterexample :
    ("y", (-10/19 : ℚ)) ∈ (analyze_user_behavior c7BadDB 90 7).categories ∧
    ¬ (0 ≤ (-10/19 : ℚ)) := by
  refine ⟨?_, by norm_num⟩
  norm_num [analyze_user_behavior, c7BadDB, behavior_buckets, sortAscBy,
    List.insertionSort, List.orderedInsert, addTo, listMax,
    interaction_weight, List.filter, List.find?, List.enum, List.enumFrom,
    List.foldl_cons, List.foldl_nil, lookupD,
    show ("x" : String) ≠ "y" from by decide,
    show ("y" : String) ≠ "x" from by decide,
    show ("alice" : String) ≠ "bob" from by decide,
    show ("bob" : String) ≠ "alice" from by decide]
  rw [if_neg (List.cons_ne_nil _ _)]
  norm_num
